import Mathlib

/-!
Verification of the stylex-vscode analysis core against its specification.

The development shallowly embeds the repository's partial evaluator
(`src/server/src/lib/evaluate.ts`), the wildcard walk handlers of the hover and
completion capabilities, and the color-value recognizer
(`src/server/src/lib/color-logic.ts`).

Modelling conventions:
* The host language's `number` values (IEEE-754 doubles) are modelled by
  `JSNum`: finite values as exact rationals plus `nan` / `inf` / `ninf`.
  Source literals are decimal and map to exact rationals; double rounding and
  negative zero are not modelled.  No theorem below depends on rounding.
* Host exceptions are modelled as `Except.error`; the evaluator returning
  normally is `Except.ok`.
* `bigint` values are exact integers.
* Machine 32-bit conversions (`ToInt32`/`ToUint32`) are explicit `% 2^32`
  arithmetic on `Int`.
-/

/-- Byte span of a syntax node, as produced by the external parser. -/
structure Span where
  start : Nat
  stop : Nat
deriving Repr, DecidableEq

/-- Model of a host `number`: finite doubles as exact rationals plus the three
special values.  (`-0` is identified with `0`; rounding is not modelled.) -/
inductive JSNum where
  | rat (q : ℚ)
  | nan
  | inf
  | ninf
deriving Repr, DecidableEq

mutual
/-- Model of `InnerType` from evaluate.ts: the value payload of a result.
`res` embeds a whole `ResultType` record appearing in value position (the
member-expression case reads `object.value[propertyKey]`, which for folded
containers yields a `ResultType` record as the value).  `hostObject` stands for
a member of the host runtime's prototype chain (a native function reached by a
dynamic property read), identified by its access path. -/
inductive Value where
  | str (s : String)
  | num (n : JSNum)
  | bool (b : Bool)
  | null
  | undefined
  | regex (pattern : String) (flags : String)
  | bigint (i : Int)
  | seq (elems : List EvalResult)
  | map (props : List (String × EvalResult))
  | res (r : EvalResult)
  | hostObject (path : String)

/-- Model of `ResultType` from evaluate.ts: the tagged evaluation result.
`nonStatic` is `{value, static: false}` (the source always constructs it with
`value: undefined`, but the field is kept), `staticValue` is
`{value, static: true, span}`, `staticId` is `{id, static: true, span}`. -/
inductive EvalResult where
  | nonStatic (value : Value)
  | staticValue (value : Value) (span : Span)
  | staticId (id : String) (span : Span)
end

/-- `result.static` of a `ResultType`. -/
def EvalResult.isStatic : EvalResult → Bool
  | .nonStatic _ => false
  | .staticValue _ _ => true
  | .staticId _ _ => true

/-- `typeof result.value !== "undefined"` test used by the binary-operator
folding (false exactly on the `undefined` value). -/
def Value.isUndefined : Value → Bool
  | .undefined => true
  | _ => false

/-- `v == null` (loose): true exactly for `null` and `undefined`. -/
def Value.isNullish : Value → Bool
  | .null => true
  | .undefined => true
  | _ => false

/-- A `TemplateElement` node: `cooked` (absent for invalid escapes) and `raw`. -/
structure TemplateElt where
  cooked : Option String
  raw : String
  span : Span
deriving Repr, DecidableEq

/-- The closed set of swc `BinaryOperator` tags. -/
inductive BinOp where
  | eqeq | noteq | eqeqeq | noteqeq
  | lt | le | gt | ge
  | inOp | instanceofOp
  | andand | oror | nullish
  | shl | shr | ushr
  | add | sub | mul | div | mod | exp
  | bitor | bitxor | bitand
deriving Repr, DecidableEq

/-- The closed set of swc `UnaryOperator` tags. -/
inductive UnaryOp where
  | plus | minus | bang | tilde | typeofOp | voidOp | deleteOp
deriving Repr, DecidableEq

mutual
/-- Expression-like nodes handled by `evaluate` (the union
`Expression | ComputedPropName | TemplateElement | NodeType` restricted to the
cases the switch distinguishes).  Node kinds that the source folds to
`NonStatic` with no further inspection (`JSXElement`, `JSXFragment`,
`JSXEmptyExpression`, `JSXMemberExpression`, `JSXNamespacedName`, `JSXText`,
`ThisExpression`, `SuperPropExpression`, `TaggedTemplateExpression`,
`NewExpression`, `ClassExpression`, `OptionalChainingExpression`,
`UpdateExpression`, `YieldExpression`, `MetaProperty`, and the `default` case)
are grouped as `unsupported`, carrying the type tag. -/
inductive Expr where
  | stringLiteral (value : String) (span : Span)
  | numericLiteral (value : JSNum) (span : Span)
  | booleanLiteral (value : Bool) (span : Span)
  | bigIntLiteral (value : Int) (span : Span)
  | nullLiteral (span : Span)
  | regExpLiteral (pattern : String) (flags : String) (span : Span)
  | invalid (span : Span)
  | identifier (value : String) (span : Span)
  | arrayExpression (elements : List ArrayElement) (span : Span)
  | objectExpression (properties : List ObjectProperty) (span : Span)
  | arrowFunctionExpression (span : Span)
  | functionExpression (span : Span)
  | awaitExpression (argument : Expr) (span : Span)
  | binaryExpression (operator : BinOp) (left : Expr) (right : Expr) (span : Span)
  | tsAsExpression (expression : Expr) (span : Span)
  | tsNonNullExpression (expression : Expr) (span : Span)
  | tsConstAssertion (expression : Expr) (span : Span)
  | tsTypeAssertion (expression : Expr) (span : Span)
  | tsInstantiation (expression : Expr) (span : Span)
  | parenthesisExpression (expression : Expr) (span : Span)
  | unaryExpression (operator : UnaryOp) (argument : Expr) (span : Span)
  | assignmentExpression (right : Expr) (span : Span)
  | conditionalExpression (test : Expr) (consequent : Expr) (alternate : Expr) (span : Span)
  | templateLiteral (quasis : List TemplateElt) (expressions : List Expr) (span : Span)
  | callExpression (callee : Expr) (arguments : List ArrayElement) (span : Span)
  | computed (expression : Expr) (span : Span)
  | memberExpression (object : Expr) (property : Expr) (span : Span)
  | privateName (id : Expr) (span : Span)
  | sequenceExpression (expressions : List Expr) (span : Span)
  | unsupported (kind : String) (span : Span)

/-- One entry of `ArrayExpression.elements` (`ExprOrSpread | undefined`):
`hole` is an elided element, `elem` carries the `spread` flag (truthiness of
the optional spread span) and the expression.  `CallExpression.arguments`
(`ExprOrSpread[]`, never elided) is modelled with the same type. -/
inductive ArrayElement where
  | hole
  | elem (spread : Bool) (expression : Expr)

/-- One entry of `ObjectExpression.properties`.  `identifierShorthand` is the
bare-`Identifier` property form; accessor and method properties carry no data
the evaluator reads. -/
inductive ObjectProperty where
  | spreadElement (arg : Expr)
  | keyValueProperty (key : Expr) (value : Expr)
  | assignmentProperty (key : Expr) (value : Expr)
  | getterProperty
  | setterProperty
  | methodProperty
  | identifierShorthand (value : String) (span : Span)
end

/-- Modelled from the spec: the `StateManager` component
(`src/server/src/lib/state-manager.ts` is not part of the supplied sources).
Per §4.3 / §6 of the specification it exposes the pure, non-throwing lookups
`isStylingNamespace` (here `verifyStylexIdentifier`, the name the evaluator
calls) and `resolveNamedImport` (here `verifyNamedImport`), populated once per
file from import analysis.  The evaluator only consults these two lookups. -/
structure StateManager where
  verifyStylexIdentifier : String → Bool
  verifyNamedImport : String → Option String

/-- A state manager with no recognized imports (used for concrete inputs whose
evaluation does not consult the import tables). -/
def emptyState : StateManager :=
  { verifyStylexIdentifier := fun _ => false
    verifyNamedImport := fun _ => none }

/-! ## Host-language value semantics -/

/-- JS `WhiteSpace` and `LineTerminator` characters (the set `String.prototype.trim`
strips and `\s` matches); the common Unicode space separators are included. -/
def isJsWhitespace (c : Char) : Bool :=
  c = ' ' || c = '\t' || c = '\n' || c = '\r' ||
  c = '\u000b' || c = '\u000c' ||
  c = '\u00a0' || c = '\u1680' ||
  ('\u2000' ≤ c && c ≤ '\u200a') ||
  c = '\u2028' || c = '\u2029' || c = '\u202f' || c = '\u205f' ||
  c = '\u3000' || c = '\ufeff'

/-- `String.prototype.trim`. -/
def jsTrim (s : String) : String :=
  String.mk (((s.toList.dropWhile isJsWhitespace).reverse.dropWhile isJsWhitespace).reverse)

/-- `String.prototype.toLowerCase`, restricted to ASCII case mapping (all
strings compared against it in the sources are ASCII keywords). -/
def jsToLowerCase (s : String) : String :=
  String.mk (s.toList.map Char.toLower)

/-- Truncation toward zero of a rational (the `ToIntegerOrInfinity` step for
finite values). -/
def ratTrunc (q : ℚ) : Int :=
  q.num.tdiv q.den

/-- ECMAScript `ToInt32`. -/
def toInt32 (n : JSNum) : Int :=
  match n with
  | .rat q =>
    let m := (ratTrunc q) % 4294967296
    if m < 2147483648 then m else m - 4294967296
  | _ => 0

/-- ECMAScript `ToUint32`. -/
def toUint32 (n : JSNum) : Int :=
  match n with
  | .rat q => (ratTrunc q) % 4294967296
  | _ => 0

/-- Digits of a natural number, most significant first. -/
def natDigits (n : Nat) : List Nat :=
  (Nat.toDigits 10 n).map (fun c => c.toNat - '0'.toNat)

/-- Decimal rendering of an integer (JS `String(int)`). -/
def intToDecimal (i : Int) : String :=
  if i < 0 then "-" ++ (Nat.toDigits 10 i.natAbs).asString
  else (Nat.toDigits 10 i.natAbs).asString

/-- Fraction digits of `q` (assumes `0 ≤ q < 1` at the call site), emitted by
repeated multiplication by 10 until the remainder vanishes or `fuel` runs out.
Exact for terminating decimals — every value a double-precision literal can
take; the shortest-round-trip printing of other doubles is not modelled. -/
def ratFractionDigits : Nat → ℚ → List Char
  | 0, _ => []
  | fuel + 1, q =>
    if q = 0 then []
    else
      let q10 := q * 10
      let d := ratTrunc q10
      (Char.ofNat ('0'.toNat + d.toNat)) :: ratFractionDigits fuel (q10 - (d : ℚ))

/-- JS `String(number)`.  Integers print in decimal; other finite values print
their (terminating) decimal expansion up to 40 digits.  The exponent forms the
host uses outside `1e-6 ≤ |x| < 1e21` are not modelled; no theorem depends on
them. -/
def jsNumToString (n : JSNum) : String :=
  match n with
  | .nan => "NaN"
  | .inf => "Infinity"
  | .ninf => "-Infinity"
  | .rat q =>
    if q.den = 1 then intToDecimal q.num
    else
      let sign := if q < 0 then "-" else ""
      let a := |q|
      let ip := ratTrunc a
      sign ++ intToDecimal ip ++ "." ++ String.mk (ratFractionDigits 40 (a - (ip : ℚ)))

/-- Parse a run of decimal digits; returns the value and the rest. -/
def takeDecDigits (cs : List Char) : Nat × Nat × List Char :=
  match cs with
  | c :: rest =>
    if '0' ≤ c && c ≤ '9' then
      let (v, k, rest') := takeDecDigits rest
      ((c.toNat - '0'.toNat) * 10 ^ k + v, k + 1, rest')
    else (0, 0, cs)
  | [] => (0, 0, [])

/-- Value of a hex digit, if the character is one. -/
def hexDigitVal (c : Char) : Option Nat :=
  let n := c.toNat
  if 48 ≤ n ∧ n ≤ 57 then some (n - 48)
  else if 97 ≤ n ∧ n ≤ 102 then some (n - 87)
  else if 65 ≤ n ∧ n ≤ 70 then some (n - 55)
  else none

/-- Parse a whole digit run in base `b` (hex/octal/binary literals); `none` on
an empty or ill-formed run. -/
def parseRadixDigits (b : Nat) (cs : List Char) : Option Nat :=
  match cs with
  | [] => none
  | _ =>
    cs.foldl (fun acc c =>
      match acc, hexDigitVal c with
      | some v, some d => if d < b then some (v * b + d) else none
      | _, _ => none) (some 0)

/-- ECMAScript `StringNumericLiteral` parsing for `ToNumber(string)`: optional
sign, `Infinity`, `0x`/`0o`/`0b` radix forms, or decimal with optional fraction
and exponent; ill-formed input is `NaN`, empty (after trimming) is `0`. -/
def jsStringToNumber (s : String) : JSNum :=
  let t := (jsTrim s).toList
  match t with
  | [] => .rat 0
  | _ =>
    let (neg, body) :=
      match t with
      | '+' :: rest => (false, rest)
      | '-' :: rest => (true, rest)
      | _ => (false, t)
    let signed : JSNum → JSNum := fun n =>
      match n, neg with
      | .rat q, true => .rat (-q)
      | .inf, true => .ninf
      | n', _ => n'
    match body with
    | [] => .nan
    | _ =>
      if body = "Infinity".toList then signed .inf
      else
        match body with
        | '0' :: x :: rest =>
          if (x = 'x' || x = 'X') && !neg && t.length = body.length then
            match parseRadixDigits 16 rest with
            | some v => .rat v
            | none => .nan
          else if (x = 'o' || x = 'O') && !neg && t.length = body.length then
            match parseRadixDigits 8 rest with
            | some v => .rat v
            | none => .nan
          else if (x = 'b' || x = 'B') && !neg && t.length = body.length then
            match parseRadixDigits 2 rest with
            | some v => .rat v
            | none => .nan
          else jsDecimalBody body signed
        | _ => jsDecimalBody body signed
where
  /-- Decimal form: `digits [. digits] [e [sign] digits]`, needing at least one
  digit on one side of the dot. -/
  jsDecimalBody (body : List Char) (signed : JSNum → JSNum) : JSNum :=
    let (ip, ipLen, afterInt) := takeDecDigits body
    let (fp, fpLen, afterFrac) :=
      match afterInt with
      | '.' :: rest => takeDecDigits rest
      | _ => (0, 0, afterInt)
    if ipLen = 0 && fpLen = 0 then .nan
    else jsWithExponent ip fp fpLen afterFrac signed
  jsWithExponent (ip fp : Nat) (fpLen : Nat) (rest : List Char)
      (signed : JSNum → JSNum) : JSNum :=
    let base : ℚ := (ip : ℚ) + (fp : ℚ) / (10 ^ fpLen : ℚ)
    match rest with
    | [] => signed (.rat base)
    | e :: erest =>
      if e = 'e' || e = 'E' then
        let (eneg, edigits) :=
          match erest with
          | '+' :: r => (false, r)
          | '-' :: r => (true, r)
          | _ => (false, erest)
        match edigits with
        | [] => .nan
        | _ =>
          let (ev, elen, eafter) := takeDecDigits edigits
          if elen = 0 || eafter ≠ [] then .nan
          else
            let scaled := if eneg then base / (10 ^ ev : ℚ) else base * (10 ^ ev : ℚ)
            signed (.rat scaled)
      else .nan

/-- JS `typeof v` (on the modelled domain; `hostObject` values stand for native
prototype functions, hence `"function"`). -/
def typeofString (v : Value) : String :=
  match v with
  | .str _ => "string"
  | .num _ => "number"
  | .bool _ => "boolean"
  | .undefined => "undefined"
  | .null => "object"
  | .bigint _ => "bigint"
  | .regex _ _ => "object"
  | .seq _ => "object"
  | .map _ => "object"
  | .res _ => "object"
  | .hostObject _ => "function"

/-- JS truthiness. -/
def jsTruthy (v : Value) : Bool :=
  match v with
  | .str s => s ≠ ""
  | .num (.rat q) => q ≠ 0
  | .num .nan => false
  | .num .inf => true
  | .num .ninf => true
  | .bool b => b
  | .null => false
  | .undefined => false
  | .bigint i => i ≠ 0
  | _ => true

/-- JS `String(v)`.  A folded sequence is a host array of `ResultType`
records, so `Array.prototype.toString` joins one `"[object Object]"` per
element; a folded mapping and an embedded record stringify as
`"[object Object]"`. -/
def jsToString (v : Value) : String :=
  match v with
  | .str s => s
  | .num n => jsNumToString n
  | .bool b => if b then "true" else "false"
  | .null => "null"
  | .undefined => "undefined"
  | .bigint i => intToDecimal i
  | .regex p f => "/" ++ p ++ "/" ++ f
  | .seq elems => String.intercalate "," (elems.map fun _ => "[object Object]")
  | .map _ => "[object Object]"
  | .res _ => "[object Object]"
  | .hostObject path => "function " ++ path ++ "() \x7b [native code] \x7d"

/-- Is `v` of an object type (coerced through `ToPrimitive` by the loose
operators)? -/
def isObjectLike (v : Value) : Bool :=
  match v with
  | .regex _ _ => true
  | .seq _ => true
  | .map _ => true
  | .res _ => true
  | .hostObject _ => true
  | _ => false

/-- ECMAScript `ToPrimitive` on the modelled domain: primitives pass through;
the object-like values have no primitive-returning `valueOf`, so they go
through `toString`. -/
def jsToPrimitive (v : Value) : Value :=
  if isObjectLike v then .str (jsToString v) else v

/-- ECMAScript `ToNumber`.  `ToNumber(bigint)` throws in the host; the only
call site that can receive a bigint (`unary +`) wraps the conversion in
`try/catch` and is modelled separately, so the `bigint` row here is
unreachable and maps to `nan`. -/
def jsToNumber (v : Value) : JSNum :=
  match v with
  | .num n => n
  | .bool b => if b then .rat 1 else .rat 0
  | .null => .rat 0
  | .undefined => .nan
  | .str s => jsStringToNumber s
  | .bigint _ => .nan
  | other => jsStringToNumber (jsToString other)

/-- ECMAScript `StringToBigInt`: like the integer grammar of `ToNumber`, with
no fraction, exponent or `Infinity`; `none` models the host's `undefined`. -/
def jsStringToBigInt (s : String) : Option Int :=
  let t := (jsTrim s).toList
  match t with
  | [] => some 0
  | _ =>
    let (neg, body) :=
      match t with
      | '+' :: rest => (false, rest)
      | '-' :: rest => (true, rest)
      | _ => (false, t)
    match body with
    | '0' :: x :: rest =>
      if (x = 'x' || x = 'X') && !neg && t.length = body.length then
        (parseRadixDigits 16 rest).map Int.ofNat
      else if (x = 'o' || x = 'O') && !neg && t.length = body.length then
        (parseRadixDigits 8 rest).map Int.ofNat
      else if (x = 'b' || x = 'B') && !neg && t.length = body.length then
        (parseRadixDigits 2 rest).map Int.ofNat
      else
        (parseRadixDigits 10 body).map (fun v => if neg then -(v : Int) else (v : Int))
    | _ =>
      (parseRadixDigits 10 body).map (fun v => if neg then -(v : Int) else (v : Int))

/-- Numeric equality on doubles (`NaN` unequal to everything, infinities by
identity). -/
def jsNumEq (a b : JSNum) : Bool :=
  match a, b with
  | .rat x, .rat y => x = y
  | .inf, .inf => true
  | .ninf, .ninf => true
  | _, _ => false

/-- Mathematical-value equality between a `number` and a `bigint`. -/
def jsNumIntEq (a : JSNum) (i : Int) : Bool :=
  match a with
  | .rat q => q = (i : ℚ)
  | _ => false

/-- Booleans are sent through `ToNumber` first by `IsLooselyEqual`. -/
def loosePrimNorm (v : Value) : Value :=
  match v with
  | .bool b => .num (if b then .rat 1 else .rat 0)
  | _ => v

/-- `IsLooselyEqual` on primitive (non-object) operands. -/
def jsLooseEqPrim (a b : Value) : Bool :=
  match loosePrimNorm a, loosePrimNorm b with
  | .null, .null => true
  | .undefined, .undefined => true
  | .null, .undefined => true
  | .undefined, .null => true
  | .num x, .num y => jsNumEq x y
  | .str x, .str y => x = y
  | .bigint x, .bigint y => x = y
  | .num x, .str y => jsNumEq x (jsStringToNumber y)
  | .str x, .num y => jsNumEq (jsStringToNumber x) y
  | .bigint x, .str y => (jsStringToBigInt y).elim false (fun n => x = n)
  | .str x, .bigint y => (jsStringToBigInt x).elim false (fun n => n = y)
  | .num x, .bigint y => jsNumIntEq x y
  | .bigint x, .num y => jsNumIntEq y x
  | _, _ => false

/-- ECMAScript `IsLooselyEqual` (`==`).  Operands of the evaluator's binary
fold come from two independent `evaluate` calls, which always build fresh
records/arrays, so two object-like operands are never the same reference:
that case is `false`. -/
def jsLooseEq (a b : Value) : Bool :=
  match isObjectLike a, isObjectLike b with
  | true, true => false
  | true, false => if b.isNullish then false else jsLooseEqPrim (jsToPrimitive a) b
  | false, true => if a.isNullish then false else jsLooseEqPrim a (jsToPrimitive b)
  | false, false => jsLooseEqPrim a b

/-- ECMAScript `IsStrictlyEqual` (`===`); object-like operands are distinct
references (see `jsLooseEq`). -/
def jsStrictEq (a b : Value) : Bool :=
  match a, b with
  | .num x, .num y => jsNumEq x y
  | .str x, .str y => x = y
  | .bool x, .bool y => x = y
  | .null, .null => true
  | .undefined, .undefined => true
  | .bigint x, .bigint y => x = y
  | _, _ => false

/-- The numeric operand of a relational comparison after `ToNumeric`. -/
inductive NumericVal where
  | big (i : Int)
  | num (n : JSNum)

/-- `ToNumeric` (bigints stay bigints, everything else through `ToNumber`). -/
def toNumeric (v : Value) : NumericVal :=
  match v with
  | .bigint i => .big i
  | _ => .num (jsToNumber v)

/-- Mathematical-value `<` between the two numeric kinds; `none` models the
comparison being `undefined` (a `NaN` operand). -/
def numericLess (a b : NumericVal) : Option Bool :=
  match a, b with
  | .big x, .big y => some (decide (x < y))
  | .num .nan, _ => none
  | _, .num .nan => none
  | .num (.rat x), .num (.rat y) => some (decide (x < y))
  | .num (.rat _), .num .inf => some true
  | .num (.rat _), .num .ninf => some false
  | .num .inf, _ => some false
  | .num .ninf, _ => some true
  | .num (.rat x), .big y => some (decide (x < (y : ℚ)))
  | .big x, .num (.rat y) => some (decide ((x : ℚ) < y))
  | .big _, .num .inf => some true
  | .big _, .num .ninf => some false

/-- ECMAScript abstract relational comparison `a < b`; `none` is the spec's
`undefined` outcome. -/
def jsLTRaw (a b : Value) : Option Bool :=
  let pa := jsToPrimitive a
  let pb := jsToPrimitive b
  match pa, pb with
  | .str x, .str y => some (decide (x < y))
  | .str x, .bigint y => (jsStringToBigInt x).map (fun n => decide (n < y))
  | .bigint x, .str y => (jsStringToBigInt y).map (fun n => decide (x < n))
  | _, _ => numericLess (toNumeric pa) (toNumeric pb)

/-- Host `a < b` (undefined ↦ false). -/
def jsLT (a b : Value) : Bool := (jsLTRaw a b).getD false

/-- Host `a > b`. -/
def jsGT (a b : Value) : Bool := (jsLTRaw b a).getD false

/-- Host `a <= b` (`true` iff `b < a` is definitely false). -/
def jsLE (a b : Value) : Bool := jsLTRaw b a = some false

/-- Host `a >= b`. -/
def jsGE (a b : Value) : Bool := jsLTRaw a b = some false

/-- Own enumerable/standard members of `Object.prototype`, the root of every
modelled prototype chain. -/
def objectProtoKeys : List String :=
  ["constructor", "hasOwnProperty", "isPrototypeOf", "propertyIsEnumerable",
   "toLocaleString", "toString", "valueOf", "__proto__",
   "__defineGetter__", "__defineSetter__", "__lookupGetter__", "__lookupSetter__"]

/-- Members of `String.prototype` (plus the inherited `Object.prototype` keys)
reachable by a dynamic property read on a folded string. -/
def stringProtoKeys : List String :=
  objectProtoKeys ++
  ["at", "charAt", "charCodeAt", "codePointAt", "concat", "endsWith",
   "includes", "indexOf", "lastIndexOf", "localeCompare", "normalize",
   "padEnd", "padStart", "repeat", "replace", "replaceAll", "search",
   "slice", "split", "startsWith", "substring", "substr",
   "toLowerCase", "toUpperCase", "toLocaleLowerCase", "toLocaleUpperCase",
   "trim", "trimEnd", "trimStart"]

/-- Members of `Number.prototype` (plus inherited keys). -/
def numberProtoKeys : List String :=
  objectProtoKeys ++ ["toExponential", "toFixed", "toPrecision"]

/-- Members of `Array.prototype` (plus inherited keys). -/
def arrayProtoKeys : List String :=
  objectProtoKeys ++
  ["at", "concat", "copyWithin", "entries", "every", "fill", "filter",
   "find", "findIndex", "findLast", "findLastIndex", "flat", "flatMap",
   "forEach", "includes", "indexOf", "join", "keys", "lastIndexOf", "length",
   "map", "pop", "push", "reduce", "reduceRight", "reverse", "shift",
   "slice", "some", "sort", "splice", "unshift", "values"]

/-- Members of `RegExp.prototype` (plus inherited keys). -/
def regexProtoKeys : List String :=
  objectProtoKeys ++
  ["exec", "test", "compile", "source", "flags", "global", "ignoreCase",
   "multiline", "sticky", "unicode", "dotAll", "hasIndices", "lastIndex"]

/-- Members of `Function.prototype` (plus inherited keys). -/
def functionProtoKeys : List String :=
  objectProtoKeys ++ ["apply", "bind", "call", "name", "length"]

/-- Is `k` the canonical string of an array index (`"0"`, `"1"`, … — `"00"`
and the like are ordinary keys)? -/
def canonicalIndex (k : String) : Option Nat :=
  let cs := k.toList
  if cs ≠ [] && cs.all (fun c => '0' ≤ c && c ≤ '9') then
    let v := cs.foldl (fun a c => a * 10 + (c.toNat - '0'.toNat)) 0
    if (Nat.toDigits 10 v).asString = k then some v else none
  else none

/-- Host `l in r` with the source's `try/catch` folded in: a primitive
right-hand side throws `TypeError`, caught to `false`.  Own properties are
modelled exactly; prototype-chain membership is modelled through the key lists
above. -/
def jsInOp (l r : Value) : Bool :=
  let k := jsToString (jsToPrimitive l)
  match r with
  | .seq elems =>
    k = "length" ||
    (match canonicalIndex k with
     | some i => i < elems.length
     | none => false) ||
    arrayProtoKeys.contains k
  | .map props => props.any (fun p => p.1 = k) || objectProtoKeys.contains k
  | .res rec =>
    (match rec with
     | .nonStatic _ => k = "value" || k = "static"
     | .staticValue _ _ => k = "value" || k = "static" || k = "span"
     | .staticId _ _ => k = "id" || k = "static" || k = "span") ||
    objectProtoKeys.contains k
  | .regex _ _ => regexProtoKeys.contains k
  | .hostObject _ => functionProtoKeys.contains k
  | _ => false

/-- Host `l instanceof r` with the source's `try/catch` folded in: no value of
the modelled domain is a constructor (there are no user function values), so
the host throws `TypeError` and the catch yields `false` for every operand
pair. -/
def jsInstanceofOp (_ : Value) (_ : Value) : Bool := false

/-- The dynamic property read `object.value[propertyKey]` of the
member-expression case, over the modelled domain.  Own properties (folded
container entries, string/array `length`, string characters by index, regex
data fields, the fields of an embedded `ResultType` record) are modelled
exactly; reads that land on a host prototype function yield a `hostObject`
for the keys listed above and `undefined` otherwise.  (String indexing is by
code point rather than UTF-16 code unit; a `ResultType` record's `span` field
is a host record outside the value domain and is modelled as `undefined`.) -/
def jsGetProp (v : Value) (k : String) : Value :=
  match v with
  | .str s =>
    if k = "length" then .num (.rat s.length)
    else
      match canonicalIndex k with
      | some i =>
        match s.toList.get? i with
        | some c => .str (String.mk [c])
        | none => if stringProtoKeys.contains k then .hostObject ("String.prototype." ++ k) else .undefined
      | none => if stringProtoKeys.contains k then .hostObject ("String.prototype." ++ k) else .undefined
  | .num _ =>
    if numberProtoKeys.contains k then .hostObject ("Number.prototype." ++ k) else .undefined
  | .bool _ =>
    if objectProtoKeys.contains k then .hostObject ("Boolean.prototype." ++ k) else .undefined
  | .bigint _ =>
    if objectProtoKeys.contains k then .hostObject ("BigInt.prototype." ++ k) else .undefined
  | .regex p f =>
    if k = "source" then .str p
    else if k = "flags" then .str f
    else if k = "lastIndex" then .num (.rat 0)
    else if k = "global" then .bool (f.contains 'g')
    else if k = "ignoreCase" then .bool (f.contains 'i')
    else if k = "multiline" then .bool (f.contains 'm')
    else if k = "sticky" then .bool (f.contains 'y')
    else if k = "unicode" then .bool (f.contains 'u')
    else if k = "dotAll" then .bool (f.contains 's')
    else if regexProtoKeys.contains k then .hostObject ("RegExp.prototype." ++ k)
    else .undefined
  | .seq elems =>
    if k = "length" then .num (.rat elems.length)
    else
      match canonicalIndex k with
      | some i =>
        match elems.get? i with
        | some r => .res r
        | none => if arrayProtoKeys.contains k then .hostObject ("Array.prototype." ++ k) else .undefined
      | none => if arrayProtoKeys.contains k then .hostObject ("Array.prototype." ++ k) else .undefined
  | .map props =>
    match props.lookup k with
    | some r => .res r
    | none => if objectProtoKeys.contains k then .hostObject ("Object.prototype." ++ k) else .undefined
  | .res rec =>
    (match k, rec with
     | "value", .nonStatic v' => v'
     | "value", .staticValue v' _ => v'
     | "id", .staticId i _ => .str i
     | "static", r' => .bool r'.isStatic
     | _, _ =>
       if objectProtoKeys.contains k then .hostObject ("Object.prototype." ++ k) else .undefined)
  | .hostObject path =>
    if functionProtoKeys.contains k then .hostObject (path ++ "." ++ k) else .undefined
  | .null => .undefined
  | .undefined => .undefined

/-! ## Arithmetic operator semantics -/

/-- Reinterpret a residue in `[0, 2^32)` as a signed 32-bit value. -/
def asInt32 (m : Int) : Int :=
  if m % 4294967296 < 2147483648 then m % 4294967296 else m % 4294967296 - 4294967296

/-- Double addition. -/
def jsNumAdd (a b : JSNum) : JSNum :=
  match a, b with
  | .rat x, .rat y => .rat (x + y)
  | .nan, _ => .nan
  | _, .nan => .nan
  | .inf, .ninf => .nan
  | .ninf, .inf => .nan
  | .inf, _ => .inf
  | _, .inf => .inf
  | .ninf, _ => .ninf
  | _, .ninf => .ninf

/-- Double negation. -/
def jsNumNeg (a : JSNum) : JSNum :=
  match a with
  | .rat x => .rat (-x)
  | .nan => .nan
  | .inf => .ninf
  | .ninf => .inf

/-- Double multiplication. -/
def jsNumMul (a b : JSNum) : JSNum :=
  match a, b with
  | .rat x, .rat y => .rat (x * y)
  | .nan, _ => .nan
  | _, .nan => .nan
  | .inf, .inf => .inf
  | .inf, .ninf => .ninf
  | .ninf, .inf => .ninf
  | .ninf, .ninf => .inf
  | .inf, .rat y => if y = 0 then .nan else if y > 0 then .inf else .ninf
  | .rat x, .inf => if x = 0 then .nan else if x > 0 then .inf else .ninf
  | .ninf, .rat y => if y = 0 then .nan else if y > 0 then .ninf else .inf
  | .rat x, .ninf => if x = 0 then .nan else if x > 0 then .ninf else .inf

/-- Double division (`x / 0` is a signed infinity or `NaN`; `-0` is not
modelled so the negative-zero divisor row coincides with the positive one). -/
def jsNumDiv (a b : JSNum) : JSNum :=
  match a, b with
  | .nan, _ => .nan
  | _, .nan => .nan
  | .inf, .inf => .nan
  | .inf, .ninf => .nan
  | .ninf, .inf => .nan
  | .ninf, .ninf => .nan
  | .inf, .rat y => if y ≥ 0 then .inf else .ninf
  | .ninf, .rat y => if y ≥ 0 then .ninf else .inf
  | .rat _, .inf => .rat 0
  | .rat _, .ninf => .rat 0
  | .rat x, .rat y =>
    if y = 0 then (if x = 0 then .nan else if x > 0 then .inf else .ninf)
    else .rat (x / y)

/-- Double remainder (sign of the dividend, exact on rationals). -/
def jsNumMod (a b : JSNum) : JSNum :=
  match a, b with
  | .nan, _ => .nan
  | _, .nan => .nan
  | .inf, _ => .nan
  | .ninf, _ => .nan
  | .rat _, .inf => a
  | .rat _, .ninf => a
  | .rat x, .rat y =>
    if y = 0 then .nan
    else .rat (x - y * (ratTrunc (x / y) : ℚ))

/-- Double exponentiation.  Exact for integral exponents; a finite non-integral
exponent is outside the modelled fragment and maps to `nan` (the claims never
exercise it). -/
def jsNumExp (a b : JSNum) : JSNum :=
  match a, b with
  | _, .nan => .nan
  | _, .rat e =>
    if e = 0 then .rat 1
    else
      match a with
      | .nan => .nan
      | .inf => if e > 0 then .inf else .rat 0
      | .ninf => if e > 0 then (if ratTrunc e % 2 = 1 && e.den = 1 then .ninf else .inf) else .rat 0
      | .rat x =>
        if e.den = 1 then
          if e > 0 then .rat (x ^ e.num.toNat)
          else if x = 0 then .inf
          else .rat (1 / x ^ (-e.num).toNat)
        else .nan
  | .rat x, .inf => if x = 1 || x = -1 then .nan else if -1 < x && x < 1 then .rat 0 else .inf
  | .rat x, .ninf => if x = 1 || x = -1 then .nan else if -1 < x && x < 1 then .inf else .rat 0
  | .nan, _ => .nan
  | .inf, .inf => .inf
  | .inf, .ninf => .rat 0
  | .ninf, .inf => .inf
  | .ninf, .ninf => .rat 0

/-- Bitwise AND on arbitrary integers, two's complement (`BigInt` semantics;
also used for `ToInt32` operands, whose residues are non-negative). -/
def intAnd (a b : Int) : Int :=
  match a, b with
  | .ofNat x, .ofNat y => .ofNat (Nat.land x y)
  | .negSucc x, .negSucc y => .negSucc (Nat.lor x y)
  | .ofNat x, .negSucc y => .ofNat (x - Nat.land x y)
  | .negSucc x, .ofNat y => .ofNat (y - Nat.land y x)

/-- Bitwise OR, two's complement. -/
def intOr (a b : Int) : Int :=
  match a, b with
  | .ofNat x, .ofNat y => .ofNat (Nat.lor x y)
  | .negSucc x, .negSucc y => .negSucc (Nat.land x y)
  | .ofNat x, .negSucc y => .negSucc (y - Nat.land y x)
  | .negSucc x, .ofNat y => .negSucc (x - Nat.land x y)

/-- Bitwise XOR, two's complement. -/
def intXor (a b : Int) : Int :=
  match a, b with
  | .ofNat x, .ofNat y => .ofNat (Nat.xor x y)
  | .negSucc x, .negSucc y => .ofNat (Nat.xor x y)
  | .ofNat x, .negSucc y => .negSucc (Nat.xor x y)
  | .negSucc x, .ofNat y => .negSucc (Nat.xor x y)

/-- The second `switch` of the binary fold applied to two `number` operands
(and, through `ToNumber`, to two `string` operands of the non-`+` operators):
shifts and bitwise operators go through `ToInt32`/`ToUint32`, the arithmetic
operators use double semantics.  Operators of the first `switch` never reach
the arithmetic fold (they fall to that switch's `default`, modelled in
`jsBinArith`); their rows here are dead and map to `nan`. -/
def jsNumArith (op : BinOp) (a b : JSNum) : JSNum :=
  match op with
  | .shl =>
    let k := ((toUint32 b) % 32).toNat
    .rat ((asInt32 ((toInt32 a) * 2 ^ k) : Int) : ℚ)
  | .shr =>
    let k := ((toUint32 b) % 32).toNat
    .rat (((toInt32 a).fdiv (2 ^ k) : Int) : ℚ)
  | .ushr =>
    let k := ((toUint32 b) % 32).toNat
    .rat (((toUint32 a).fdiv (2 ^ k) : Int) : ℚ)
  | .add => jsNumAdd a b
  | .sub => jsNumAdd a (jsNumNeg b)
  | .mul => jsNumMul a b
  | .div => jsNumDiv a b
  | .mod => jsNumMod a b
  | .exp => jsNumExp a b
  | .bitor => .rat ((asInt32 (intOr ((toInt32 a) % 4294967296) ((toInt32 b) % 4294967296)) : Int) : ℚ)
  | .bitxor => .rat ((asInt32 (intXor ((toInt32 a) % 4294967296) ((toInt32 b) % 4294967296)) : Int) : ℚ)
  | .bitand => .rat ((asInt32 (intAnd ((toInt32 a) % 4294967296) ((toInt32 b) % 4294967296)) : Int) : ℚ)
  | _ => .nan

/-- The second `switch` of the binary fold applied to two `bigint` operands.
The host raises for the four partial operations, uncaught by the source:
`>>>` (`TypeError`), `/` and `%` by zero and `**` with a negative exponent
(`RangeError`); these become `Except.error`. -/
def jsBigIntArith (op : BinOp) (a b : Int) : Except String Value :=
  match op with
  | .shl =>
    pure (.bigint (if 0 ≤ b then a * 2 ^ b.toNat else a.fdiv (2 ^ (-b).toNat)))
  | .shr =>
    pure (.bigint (if 0 ≤ b then a.fdiv (2 ^ b.toNat) else a * 2 ^ (-b).toNat))
  | .ushr => Except.error "TypeError: BigInts have no unsigned right shift"
  | .add => pure (.bigint (a + b))
  | .sub => pure (.bigint (a - b))
  | .mul => pure (.bigint (a * b))
  | .div =>
    if b = 0 then Except.error "RangeError: Division by zero"
    else pure (.bigint (a.tdiv b))
  | .mod =>
    if b = 0 then Except.error "RangeError: Division by zero"
    else pure (.bigint (a.tmod b))
  | .exp =>
    if b < 0 then Except.error "RangeError: Exponent must be non-negative"
    else pure (.bigint (a ^ b.toNat))
  | .bitor => pure (.bigint (intOr a b))
  | .bitxor => pure (.bigint (intXor a b))
  | .bitand => pure (.bigint (intAnd a b))
  | _ => Except.error "Unknown binary operator"

/-! ## The binary-expression fold -/

/-- Operators handled by the first `switch` of the binary-expression case. -/
def isFirstSwitchOp (op : BinOp) : Bool :=
  match op with
  | .eqeq | .noteq | .eqeqeq | .noteqeq
  | .lt | .le | .gt | .ge
  | .inOp | .instanceofOp
  | .andand | .oror | .nullish => true
  | _ => false

/-- Operators handled by the second (bit/shift/arithmetic) `switch`. -/
def isSecondSwitchOp (op : BinOp) : Bool :=
  match op with
  | .shl | .shr | .ushr
  | .add | .sub | .mul | .div | .mod | .exp
  | .bitor | .bitxor | .bitand => true
  | _ => false

/-- The relational subset (`<`, `<=`, `>`, `>=`). -/
def isRelationalOp (op : BinOp) : Bool :=
  match op with
  | .lt | .le | .gt | .ge => true
  | _ => false

/-- The first `switch` of the binary-expression case of `evaluate`, on the two
folded operand values.  `none` models `result` staying `undefined` because the
operator has no case there.  The relational cases carry the source's explicit
`left.value == null || right.value == null → false` guard. -/
def jsBinFirst (op : BinOp) (lv rv : Value) : Option Value :=
  match op with
  | .eqeq => some (.bool (jsLooseEq lv rv))
  | .noteq => some (.bool (!jsLooseEq lv rv))
  | .eqeqeq => some (.bool (jsStrictEq lv rv))
  | .noteqeq => some (.bool (!jsStrictEq lv rv))
  | .lt => some (.bool (if lv.isNullish || rv.isNullish then false else jsLT lv rv))
  | .le => some (.bool (if lv.isNullish || rv.isNullish then false else jsLE lv rv))
  | .gt => some (.bool (if lv.isNullish || rv.isNullish then false else jsGT lv rv))
  | .ge => some (.bool (if lv.isNullish || rv.isNullish then false else jsGE lv rv))
  | .inOp => some (.bool (jsInOp lv rv))
  | .instanceofOp => some (.bool (jsInstanceofOp lv rv))
  | .andand => some (if jsTruthy lv then rv else lv)
  | .oror => some (if jsTruthy lv then lv else rv)
  | .nullish => some (if lv.isNullish then rv else lv)
  | _ => none

/-- Is `typeof v` one of `"number"`, `"bigint"`, `"string"`? -/
def isNumBigStr (v : Value) : Bool :=
  match v with
  | .num _ => true
  | .bigint _ => true
  | .str _ => true
  | _ => false

/-- The homogeneity guard before the second `switch`: mismatched operand
types make the whole expression fold to `static: true, value: undefined`. -/
def homogeneityMismatch (lv rv : Value) : Bool :=
  !isNumBigStr lv || !isNumBigStr rv || typeofString lv ≠ typeofString rv

/-- The second `switch` of the binary-expression case: dispatch on the (type
homogeneous) operand pair.  Both-string `+` concatenates; other operators over
strings coerce through `ToNumber`; bigint pairs use exact (and partial) bigint
semantics.  A first-switch operator reaching this point hits the `default:
throw new Error("Unknown binary operator")` (unreachable: every first-switch
operator either produces a non-`undefined` result or fails homogeneity). -/
def jsBinArith (op : BinOp) (lv rv : Value) : Except String Value :=
  if !isSecondSwitchOp op then Except.error "Unknown binary operator"
  else
    match lv, rv with
    | .bigint a, .bigint b => jsBigIntArith op a b
    | .str a, .str b =>
      if op = .add then pure (.str (a ++ b))
      else pure (.num (jsNumArith op (jsStringToNumber a) (jsStringToNumber b)))
    | _, _ => pure (.num (jsNumArith op (jsToNumber lv) (jsToNumber rv)))

/-- The whole `BinaryExpression` case of `evaluate`, after the two operands
have been evaluated: non-static or symbolic operands short-circuit to
`NonStatic`; then the first `switch`, the `typeof result !== "undefined"`
early return, the homogeneity guard, and the second `switch`. -/
def evalBinaryOnValues (op : BinOp) (left right : EvalResult) (span : Span) :
    Except String EvalResult :=
  match left, right with
  | .nonStatic _, _ => pure (.nonStatic .undefined)
  | _, .nonStatic _ => pure (.nonStatic .undefined)
  | .staticId _ _, _ => pure (.nonStatic .undefined)
  | _, .staticId _ _ => pure (.nonStatic .undefined)
  | .staticValue lv _, .staticValue rv _ =>
    let afterFirst : Except String EvalResult :=
      if homogeneityMismatch lv rv then pure (.staticValue .undefined span)
      else do
        let v ← jsBinArith op lv rv
        pure (.staticValue v span)
    match jsBinFirst op lv rv with
    | some result => if result.isUndefined then afterFirst else pure (.staticValue result span)
    | none => afterFirst

/-- Host-semantics fold for the first-switch operators as the specification
states them: equality, relational (full coercion rules, no `null`/`undefined`
guard), `in`/`instanceof` with the catch-to-`false`, and short-circuit
`&&`/`||`/`??`.  The spec-side counterpart of `jsBinFirst`. -/
def specBinFirstFold (op : BinOp) (lv rv : Value) : Value :=
  match op with
  | .eqeq => .bool (jsLooseEq lv rv)
  | .noteq => .bool (!jsLooseEq lv rv)
  | .eqeqeq => .bool (jsStrictEq lv rv)
  | .noteqeq => .bool (!jsStrictEq lv rv)
  | .lt => .bool (jsLT lv rv)
  | .le => .bool (jsLE lv rv)
  | .gt => .bool (jsGT lv rv)
  | .ge => .bool (jsGE lv rv)
  | .inOp => .bool (jsInOp lv rv)
  | .instanceofOp => .bool (jsInstanceofOp lv rv)
  | .andand => if jsTruthy lv then rv else lv
  | .oror => if jsTruthy lv then lv else rv
  | .nullish => if lv.isNullish then rv else lv
  | _ => .undefined

/-! ## The unary, member and call folds -/

/-- The `UnaryExpression` case after the operand has been evaluated.  The
`+` case models the source's `try { +value } catch`: unary plus on a bigint
throws `TypeError`, caught to `static undefined`; every other operand goes
through `ToNumber`. -/
def evalUnaryOnValue (op : UnaryOp) (result : EvalResult) (span : Span) : EvalResult :=
  match result with
  | .nonStatic _ => .nonStatic .undefined
  | .staticId _ _ => .nonStatic .undefined
  | .staticValue v _ =>
    if v.isNullish then .staticValue .undefined span
    else
      match op with
      | .plus =>
        match v with
        | .bigint _ => .staticValue .undefined span
        | _ => .staticValue (.num (jsToNumber v)) span
      | .minus =>
        match v with
        | .bigint i => .staticValue (.bigint (-i)) span
        | _ => .staticValue (.num (jsNumNeg (jsToNumber v))) span
      | .bang => .staticValue (.bool (!jsTruthy v)) span
      | .tilde =>
        match v with
        | .bigint i => .staticValue (.bigint (-i - 1)) span
        | _ => .staticValue (.num (.rat ((asInt32 (-(toInt32 (jsToNumber v)) - 1) : Int) : ℚ))) span
      | .typeofOp => .staticValue (.str (typeofString v)) span
      | .voidOp => .staticValue .undefined span
      | .deleteOp => .nonStatic .undefined

/-- `propertyKey` of the member-expression case: the id of a symbolic property
result, else its value. -/
def propertyKeyValue (property : EvalResult) : Value :=
  match property with
  | .staticId i _ => .str i
  | .staticValue v _ => v
  | .nonStatic v => v

/-- The template interpolation of the symbolic-base branch
(`` `${object.id}.${propertyKey}` ``: `String(propertyKey)`). -/
def propertyKeyString (property : EvalResult) : String :=
  jsToString (propertyKeyValue property)

/-- The `MemberExpression` case after both sub-evaluations (both static here;
the evaluator returns earlier on a non-static operand).  A symbolic base
extends the dotted path; otherwise the fold reads the property dynamically:
the base itself when nullish, the host read for a string key, `undefined`
otherwise. -/
def memberOnValues (object property : EvalResult) (span : Span) : EvalResult :=
  match object, property with
  | .nonStatic _, _ => .nonStatic .undefined
  | _, .nonStatic _ => .nonStatic .undefined
  | .staticId oid _, p => .staticId (oid ++ "." ++ propertyKeyString p) span
  | .staticValue ov _, p =>
    if ov.isNullish then .staticValue ov span
    else
      match propertyKeyValue p with
      | .str k => .staticValue (jsGetProp ov k) span
      | _ => .staticValue .undefined span

/-- Recognition of the `firstThatWorks` call form: a member call
`<stylexNamespace>.firstThatWorks(...)` on a verified namespace identifier, or
a call of a verified named import of `firstThatWorks`. -/
def isFirstThatWorksCall (sm : StateManager) (callee : Expr) : Bool :=
  match callee with
  | .memberExpression (.identifier objName _) (.identifier propName _) _ =>
    sm.verifyStylexIdentifier objName && propName = "firstThatWorks"
  | .identifier name _ => sm.verifyNamedImport name = some "firstThatWorks"
  | _ => false

/-! ## Containers and templates -/

/-- The per-element push of `processArrayExpression` once the element's
expression has been evaluated.  A non-spread element pushes its result.  For a
spread element the source first pushes `result` when it is non-static, and
then pushes `...(iterable-test(result) ? result : [result])` — where the
iterability test `Array.isArray(result) || (Symbol.iterator in result && ...)`
is applied to the `ResultType` record itself, not to `result.value`; a
`ResultType` record is a plain object, never an array and never iterable, so
the test is false for every result and the spread always contributes the
single record `[result]`.  Hence a static spread operand is pushed once,
unflattened, and a non-static one twice. -/
def spreadContribution (spread : Bool) (result : EvalResult) : List EvalResult :=
  if spread then (if result.isStatic then [] else [result]) ++ [result]
  else [result]

/-- Insertion `accumulator[key] = value` on a string-keyed record: overwrite in
place, else append. -/
def insertProp (props : List (String × EvalResult)) (k : String) (v : EvalResult) :
    List (String × EvalResult) :=
  match props with
  | [] => [(k, v)]
  | (k', v') :: rest => if k' = k then (k', v) :: rest else (k', v') :: insertProp rest k v

/-- `Object.assign(accumulator, result.value)` of the object-spread case: a
mapping merges its entries, a sequence merges its elements under their index
keys; primitives have no own enumerable properties and merge nothing.  (A
string value would copy raw characters — plain strings outside the
`ResultType` invariant — and an embedded record its raw fields; both corners
are outside the modelled value domain and merge nothing here.) -/
def objectAssign (acc : List (String × EvalResult)) (v : Value) :
    List (String × EvalResult) :=
  match v with
  | .map props => props.foldl (fun a p => insertProp a p.1 p.2) acc
  | .seq elems =>
    (elems.enum.foldl (fun a p => insertProp a (Nat.toDigits 10 p.1).asString p.2) acc)
  | _ => acc

/-- `node.cooked || node.raw` of the `TemplateElement` case. -/
def templateEltText (q : TemplateElt) : String :=
  match q.cooked with
  | some c => if c = "" then q.raw else c
  | none => q.raw

/-- The `TemplateElement` case of `evaluate` (always a static string). -/
def templateEltResult (q : TemplateElt) : EvalResult :=
  .staticValue (.str (templateEltText q)) q.span

/-- One element of `values.join("")`: `Array.prototype.join` renders `null`
and `undefined` as the empty string and stringifies everything else. -/
def joinElemString (v : Value) : String :=
  match v with
  | .null => ""
  | .undefined => ""
  | _ => jsToString v

/-- `values.join("")` of the template-literal case. -/
def joinValues (vs : List Value) : String :=
  String.join (vs.map joinElemString)

/-- Every expression node has positive size (used by the termination measure
of the template loop). -/
theorem expr_sizeOf_pos (e : Expr) : 0 < sizeOf e := by
  cases e <;> simp

/-- Spans have positive size (termination measure bookkeeping). -/
theorem span_sizeOf_pos (s : Span) : 0 < sizeOf s := by
  cases s; simp

/-- The last element of a list is smaller than the list (termination of the
sequence-expression case). -/
theorem sizeOf_getLast_of_eq {l : List Expr} {e : Expr} (h : l.getLast? = some e) :
    sizeOf e < sizeOf l := by
  have hx : e ∈ l.getLast? := by rw [h]; rfl
  obtain ⟨hne, heq⟩ := List.mem_getLast?_eq_getLast hx
  subst heq
  exact List.sizeOf_lt_of_mem (List.getLast_mem hne)

/-! ## The evaluator -/

mutual
/-- Embedding of `evaluate` from `src/server/src/lib/evaluate.ts`.  Host
exceptions propagate as `Except.error`; every other outcome is `Except.ok`
with the source's `ResultType`. -/
def evaluate (sm : StateManager) : Expr → Except String EvalResult
  | .stringLiteral v span => pure (.staticValue (.str v) span)
  | .numericLiteral v span => pure (.staticValue (.num v) span)
  | .booleanLiteral v span => pure (.staticValue (.bool v) span)
  | .bigIntLiteral v span => pure (.staticValue (.bigint v) span)
  | .nullLiteral span => pure (.staticValue .null span)
  | .regExpLiteral p f span => pure (.staticValue (.regex p f) span)
  | .invalid _ => Except.error "Invalid expression"
  | .identifier v span =>
    if v = "undefined" then pure (.staticValue .undefined span)
    else pure (.staticId v span)
  | .arrayExpression elements span => do
    let vals ← processArrayElems sm elements
    pure (.staticValue (.seq vals) span)
  | .objectExpression properties span => do
    let props ← processObjectProps sm properties []
    pure (.staticValue (.map props) span)
  | .arrowFunctionExpression _ => pure (.nonStatic .undefined)
  | .functionExpression _ => pure (.nonStatic .undefined)
  | .awaitExpression argument _ => do
    let result ← evaluate sm argument
    match result with
    | .nonStatic _ => pure (.nonStatic .undefined)
    | r => pure r
  | .binaryExpression op left right span => do
    let l ← evaluate sm left
    let r ← evaluate sm right
    evalBinaryOnValues op l r span
  | .tsAsExpression e _ => evaluate sm e
  | .tsNonNullExpression e _ => evaluate sm e
  | .tsConstAssertion e _ => evaluate sm e
  | .tsTypeAssertion e _ => evaluate sm e
  | .tsInstantiation e _ => evaluate sm e
  | .parenthesisExpression e _ => evaluate sm e
  | .unaryExpression op argument span => do
    let result ← evaluate sm argument
    pure (evalUnaryOnValue op result span)
  | .assignmentExpression right _ => evaluate sm right
  | .conditionalExpression test consequent alternate _ => do
    let t ← evaluate sm test
    match t with
    | .nonStatic _ => pure (.nonStatic .undefined)
    | .staticId _ _ => pure (.nonStatic .undefined)
    | .staticValue v _ =>
      if jsTruthy v then evaluate sm consequent else evaluate sm alternate
  | .templateLiteral quasis expressions span => do
    let loop ← templateLoop sm true quasis expressions
    match loop with
    | none => pure (.nonStatic .undefined)
    | some values => pure (.staticValue (.str (joinValues values)) span)
  | .callExpression callee arguments span =>
    if isFirstThatWorksCall sm callee then do
      -- the source builds a synthetic ArrayExpression over `node.arguments`,
      -- folds it with processArrayExpression and reverses the value in place
      let vals ← processArrayElems sm arguments
      pure (.staticValue (.seq vals.reverse) span)
    else pure (.nonStatic .undefined)
  | .computed e _ => evaluate sm e
  | .memberExpression object property span => do
    let o ← evaluate sm object
    match o with
    | .nonStatic _ => pure (.nonStatic .undefined)
    | _ => do
      let p ← evaluate sm property
      pure (memberOnValues o p span)
  | .privateName idNode _ => evaluate sm idNode
  | .sequenceExpression expressions _ =>
    -- `node.expressions[node.expressions.length - 1]`; an empty list would
    -- index `undefined` and crash the host on `.type`
    match h : expressions.getLast? with
    | some e => evaluate sm e
    | none => Except.error "TypeError: Cannot read properties of undefined"
  | .unsupported _ _ => pure (.nonStatic .undefined)
termination_by e => sizeOf e
decreasing_by
all_goals simp_wf
all_goals first
  | omega
  | (have hlast := sizeOf_getLast_of_eq h; omega)
  | (have hs := span_sizeOf_pos span; omega)

/-- The `reduce` of `processArrayExpression`: hole entries are skipped, spread
and plain entries contribute per `spreadContribution`. -/
def processArrayElems (sm : StateManager) : List ArrayElement → Except String (List EvalResult)
  | [] => pure []
  | .hole :: rest => processArrayElems sm rest
  | .elem spread e :: rest => do
    let result ← evaluate sm e
    let tail ← processArrayElems sm rest
    pure (spreadContribution spread result ++ tail)
termination_by l => sizeOf l

/-- The `reduce` of the `ObjectExpression` case, with the accumulator record
threaded explicitly. -/
def processObjectProps (sm : StateManager) :
    List ObjectProperty → List (String × EvalResult) → Except String (List (String × EvalResult))
  | [], acc => pure acc
  | .spreadElement arg :: rest, acc => do
    let result ← evaluate sm arg
    -- `"value" in result` excludes the id-variant; a non-static result is
    -- skipped; a static one is merged with Object.assign
    let acc' :=
      match result with
      | .staticId _ _ => acc
      | .nonStatic _ => acc
      | .staticValue v _ => objectAssign acc v
    processObjectProps sm rest acc'
  | .keyValueProperty key value :: rest, acc => do
    let keyVal ← evaluate sm key
    match keyVal with
    | .staticId _ _ => processObjectProps sm rest acc
    | .nonStatic kv | .staticValue kv _ =>
      -- `typeof keyVal.value` must be string, number or symbol (symbols do
      -- not occur in the value domain)
      match kv with
      | .str s => do
        let v ← evaluate sm value
        processObjectProps sm rest (insertProp acc s v)
      | .num n => do
        let v ← evaluate sm value
        processObjectProps sm rest (insertProp acc (jsNumToString n) v)
      | _ => processObjectProps sm rest acc
  | .assignmentProperty key value :: rest, acc => do
    let keyVal ← evaluate sm key
    match keyVal with
    | .staticId _ _ => processObjectProps sm rest acc
    | .nonStatic kv | .staticValue kv _ =>
      match kv with
      | .str s => do
        let v ← evaluate sm value
        processObjectProps sm rest (insertProp acc s v)
      | .num n => do
        let v ← evaluate sm value
        processObjectProps sm rest (insertProp acc (jsNumToString n) v)
      | _ => processObjectProps sm rest acc
  | .getterProperty :: rest, acc => processObjectProps sm rest acc
  | .setterProperty :: rest, acc => processObjectProps sm rest acc
  | .methodProperty :: rest, acc => processObjectProps sm rest acc
  | .identifierShorthand v sp :: rest, acc =>
    -- inlines evaluate's Identifier case: both outcomes are static, so the
    -- `!result.static` guard never skips
    let result : EvalResult :=
      if v = "undefined" then .staticValue .undefined sp else .staticId v sp
    processObjectProps sm rest (insertProp acc v result)
termination_by l acc => sizeOf l

/-- The `while` loop of the template-literal case: alternate between quasis
and expressions starting with a quasi, exiting when the list whose turn it is
is exhausted; a non-static or (for quasis) symbolic entry aborts the whole
literal to `NonStatic` (`none`), a symbolic expression renders as
`var(--<id>)`. -/
def templateLoop (sm : StateManager) :
    Bool → List TemplateElt → List Expr → Except String (Option (List Value))
  | true, [], _ => pure (some [])
  | true, q :: qs, es =>
    (match templateEltResult q with
     | .staticValue v _ => do
       let tail ← templateLoop sm false qs es
       pure (tail.map (fun vs => v :: vs))
     | _ => pure none)
  | false, _, [] => pure (some [])
  | false, qs, e :: es => do
    let result ← evaluate sm e
    match result with
    | .nonStatic _ => pure none
    | .staticId i _ => do
      let tail ← templateLoop sm true qs es
      pure (tail.map (fun vs => .str ("var(--" ++ i ++ ")") :: vs))
    | .staticValue v _ => do
      let tail ← templateLoop sm true qs es
      pure (tail.map (fun vs => v :: vs))
termination_by flag qs es => sizeOf qs + sizeOf es + (if flag then 1 else 0)
decreasing_by
all_goals simp_wf
all_goals try omega
all_goals (have hx := expr_sizeOf_pos e; omega)
end

/-! ## The hover and completion wildcard handlers -/

/-- The `"*"` handler of `onHover` (hover.ts): it returns `false` (skipping
the node's subtree) exactly when the node has a span, is not a
`VariableDeclaration`, and the cursor byte offset is simultaneously strictly
below the adjusted span start and strictly above the adjusted span end.
Offsets are integers (`span.start - moduleStart` may be negative). -/
def hoverWildcardSkips (paramByte moduleStart : Int) (hasSpan : Bool)
    (nodeType : String) (spanStart spanEnd : Int) : Bool :=
  hasSpan && nodeType ≠ "VariableDeclaration" &&
  paramByte < spanStart - moduleStart && paramByte > spanEnd - moduleStart

/-- The `"*"` handler of `onCompletion` (completions.ts); its skip condition is
textually identical to the hover one. -/
def completionWildcardSkips (paramByte moduleStart : Int) (hasSpan : Bool)
    (nodeType : String) (spanStart spanEnd : Int) : Bool :=
  hasSpan && nodeType ≠ "VariableDeclaration" &&
  paramByte < spanStart - moduleStart && paramByte > spanEnd - moduleStart

/-! ## The color-value recognizer (color-logic.ts) -/

/-- The keyword colors `getColorFromValue` can return. -/
inductive KeywordColor where
  | transparent
  | currentColor
deriving Repr, DecidableEq

/-- Matcher for the functional-notation test
`/^\s*(?:rgba?|hsla?)\s*\([^)]+\)\s*$/`: optional whitespace, `rgb`/`hsl`
with an optional `a`, optional whitespace, `(`, one or more non-`)`
characters, `)`, optional whitespace, end.  (The regex backtracks only
trivially here: the optional `a` can succeed exactly when the character is
present, and `[^)]+` stops at the first `)`.) -/
def matchesFunctionalColor (s : String) : Bool :=
  let cs := s.toList.dropWhile isJsWhitespace
  let afterName :=
    match cs with
    | 'r' :: 'g' :: 'b' :: rest => some rest
    | 'h' :: 's' :: 'l' :: rest => some rest
    | _ => none
  match afterName with
  | none => false
  | some rest =>
    let rest := match rest with
      | 'a' :: r => r
      | r => r
    match (rest.dropWhile isJsWhitespace) with
    | '(' :: inner =>
      let body := inner.takeWhile (fun c => c ≠ ')')
      let after := inner.dropWhile (fun c => c ≠ ')')
      match after with
      | ')' :: tail => body ≠ [] && (tail.dropWhile isJsWhitespace) = []
      | _ => false
    | _ => false

/-- Matcher for the hex test `/^\s*#[0-9a-f]+\s*$/i`: optional whitespace,
`#`, one or more hex digits (either case), optional whitespace, end. -/
def matchesHexColor (s : String) : Bool :=
  match s.toList.dropWhile isJsWhitespace with
  | '#' :: rest =>
    let digits := rest.takeWhile (fun c => (hexDigitVal c).isSome)
    let tail := rest.dropWhile (fun c => (hexDigitVal c).isSome)
    digits ≠ [] && (tail.dropWhile isJsWhitespace) = []
  | _ => false

/-- The keys of the external `color-name` package (the 148 CSS named
colors), as tested by `Object.keys(namedColors.default).includes(...)`. -/
def namedColorKeys : List String :=
  ["aliceblue", "antiquewhite", "aqua", "aquamarine", "azure", "beige",
   "bisque", "black", "blanchedalmond", "blue", "blueviolet", "brown",
   "burlywood", "cadetblue", "chartreuse", "chocolate", "coral",
   "cornflowerblue", "cornsilk", "crimson", "cyan", "darkblue", "darkcyan",
   "darkgoldenrod", "darkgray", "darkgreen", "darkgrey", "darkkhaki",
   "darkmagenta", "darkolivegreen", "darkorange", "darkorchid", "darkred",
   "darksalmon", "darkseagreen", "darkslateblue", "darkslategray",
   "darkslategrey", "darkturquoise", "darkviolet", "deeppink", "deepskyblue",
   "dimgray", "dimgrey", "dodgerblue", "firebrick", "floralwhite",
   "forestgreen", "fuchsia", "gainsboro", "ghostwhite", "gold", "goldenrod",
   "gray", "green", "greenyellow", "grey", "honeydew", "hotpink", "indianred",
   "indigo", "ivory", "khaki", "lavender", "lavenderblush", "lawngreen",
   "lemonchiffon", "lightblue", "lightcoral", "lightcyan",
   "lightgoldenrodyellow", "lightgray", "lightgreen", "lightgrey",
   "lightpink", "lightsalmon", "lightseagreen", "lightskyblue",
   "lightslategray", "lightslategrey", "lightsteelblue", "lightyellow",
   "lime", "limegreen", "linen", "magenta", "maroon", "mediumaquamarine",
   "mediumblue", "mediumorchid", "mediumpurple", "mediumseagreen",
   "mediumslateblue", "mediumspringgreen", "mediumturquoise",
   "mediumvioletred", "midnightblue", "mintcream", "mistyrose", "moccasin",
   "navajowhite", "navy", "oldlace", "olive", "olivedrab", "orange",
   "orangered", "orchid", "palegoldenrod", "palegreen", "paleturquoise",
   "palevioletred", "papayawhip", "peachpuff", "peru", "pink", "plum",
   "powderblue", "purple", "rebeccapurple", "red", "rosybrown", "royalblue",
   "saddlebrown", "salmon", "sandybrown", "seagreen", "seashell", "sienna",
   "silver", "skyblue", "slateblue", "slategray", "slategrey", "snow",
   "springgreen", "steelblue", "tan", "teal", "thistle", "tomato",
   "turquoise", "violet", "wheat", "white", "whitesmoke", "yellow",
   "yellowgreen"]

/-- Embedding of `getColorFromValue` (color-logic.ts), parametric over the
external `culori.parse` function (`γ` is culori's color type): a non-string
input is `none`; a trimmed case-insensitive `transparent`/`currentcolor`
returns the keyword; a string matching neither the functional form, the hex
form nor a named color returns `none` before `culori.parse` is consulted;
otherwise the parse result (`color ?? null`). -/
def getColorFromValue {γ : Type} (parse : String → Option γ) (value : Value) :
    Option (γ ⊕ KeywordColor) :=
  match value with
  | .str s =>
    let trimmedValue := jsTrim s
    if jsToLowerCase trimmedValue = "transparent" then some (.inr .transparent)
    else if jsToLowerCase trimmedValue = "currentcolor" then some (.inr .currentColor)
    else if !matchesFunctionalColor trimmedValue && !matchesHexColor trimmedValue &&
            !namedColorKeys.contains trimmedValue then none
    else
      match parse trimmedValue with
      | some c => some (.inl c)
      | none => none
  | _ => none

/-! ## Claim theorems -/

/-- Concrete spans for witness inputs. -/
def wspan : Span := ⟨0, 10⟩

/-- Concrete span of a left operand in witness inputs. -/
def wspanL : Span := ⟨1, 2⟩

/-- Concrete span of a right operand in witness inputs. -/
def wspanR : Span := ⟨3, 4⟩

/-- Concrete inner spans for witness inputs. -/
def wspanA : Span := ⟨5, 6⟩

/-- Concrete inner spans for witness inputs. -/
def wspanB : Span := ⟨7, 8⟩

/-- Concrete inner spans for witness inputs. -/
def wspanC : Span := ⟨2, 9⟩

/-- C1: the claim says a spread of a static iterable is flattened element-wise
and a non-static spread is preserved as exactly one opaque entry.  The code
does neither: evaluating `[1, ...(true ? [2,3] : [4]), 5]` yields a
three-element sequence whose middle entry is the *nested, unflattened* array
result (not the flat `[1,2,3,5]`), and a non-static spread (`[...(this)]`)
contributes the opaque non-static entry *twice* (the `!result.static` push is
followed by the always-singleton iterable-test push; see
`spreadContribution`). -/
theorem spread_not_flattened :
    evaluate emptyState
      (.arrayExpression
        [ .elem false (.numericLiteral (.rat 1) wspanL),
          .elem true (.conditionalExpression (.booleanLiteral true wspanA)
            (.arrayExpression [.elem false (.numericLiteral (.rat 2) wspanB),
                               .elem false (.numericLiteral (.rat 3) wspanC)] wspanR)
            (.arrayExpression [.elem false (.numericLiteral (.rat 4) wspanB)] wspanR) wspanA),
          .elem false (.numericLiteral (.rat 5) wspanR) ] wspan)
    = .ok (.staticValue (.seq
        [ .staticValue (.num (.rat 1)) wspanL,
          .staticValue (.seq [.staticValue (.num (.rat 2)) wspanB,
                              .staticValue (.num (.rat 3)) wspanC]) wspanR,
          .staticValue (.num (.rat 5)) wspanR ]) wspan) ∧
    evaluate emptyState
      (.arrayExpression [ .elem true (.unsupported "ThisExpression" wspanA) ] wspan)
    = .ok (.staticValue
        (.seq [.nonStatic .undefined, .nonStatic .undefined]) wspan) ∧
    ¬ evaluate emptyState
      (.arrayExpression
        [ .elem false (.numericLiteral (.rat 1) wspanL),
          .elem true (.conditionalExpression (.booleanLiteral true wspanA)
            (.arrayExpression [.elem false (.numericLiteral (.rat 2) wspanB),
                               .elem false (.numericLiteral (.rat 3) wspanC)] wspanR)
            (.arrayExpression [.elem false (.numericLiteral (.rat 4) wspanB)] wspanR) wspanA),
          .elem false (.numericLiteral (.rat 5) wspanR) ] wspan)
    = .ok (.staticValue (.seq
        [ .staticValue (.num (.rat 1)) wspanL,
          .staticValue (.num (.rat 2)) wspanB,
          .staticValue (.num (.rat 3)) wspanC,
          .staticValue (.num (.rat 5)) wspanR ]) wspan) := by
  have h1 : evaluate emptyState
      (.arrayExpression
        [ .elem false (.numericLiteral (.rat 1) wspanL),
          .elem true (.conditionalExpression (.booleanLiteral true wspanA)
            (.arrayExpression [.elem false (.numericLiteral (.rat 2) wspanB),
                               .elem false (.numericLiteral (.rat 3) wspanC)] wspanR)
            (.arrayExpression [.elem false (.numericLiteral (.rat 4) wspanB)] wspanR) wspanA),
          .elem false (.numericLiteral (.rat 5) wspanR) ] wspan)
      = .ok (.staticValue (.seq
          [ .staticValue (.num (.rat 1)) wspanL,
            .staticValue (.seq [.staticValue (.num (.rat 2)) wspanB,
                                .staticValue (.num (.rat 3)) wspanC]) wspanR,
            .staticValue (.num (.rat 5)) wspanR ]) wspan) := by
    simp +decide [evaluate, processArrayElems, spreadContribution, jsTruthy,
      EvalResult.isStatic, pure, Except.pure, bind, Except.bind]
  refine ⟨h1, ?_, ?_⟩
  · simp [evaluate, processArrayElems, spreadContribution, EvalResult.isStatic, pure,
      Except.pure, bind, Except.bind]
  · rw [h1]
    simp

/-- C2: the claim says `evaluate` never raises on well-formed nodes, in
particular not for bigint operands of `/`, `%`, `**`, `>>>`.  The code throws
uncaught host exceptions on exactly those foldings: `1n >>> 1n` raises
`TypeError` (bigints have no unsigned shift), `1n / 0n` and `1n % 0n` raise
`RangeError`, and `2n ** -1n` raises `RangeError`. -/
theorem bigint_operators_throw :
    evaluate emptyState
      (.binaryExpression .ushr (.bigIntLiteral 1 wspanL) (.bigIntLiteral 1 wspanR) wspan)
      = .error "TypeError: BigInts have no unsigned right shift" ∧
    evaluate emptyState
      (.binaryExpression .div (.bigIntLiteral 1 wspanL) (.bigIntLiteral 0 wspanR) wspan)
      = .error "RangeError: Division by zero" ∧
    evaluate emptyState
      (.binaryExpression .mod (.bigIntLiteral 1 wspanL) (.bigIntLiteral 0 wspanR) wspan)
      = .error "RangeError: Division by zero" ∧
    evaluate emptyState
      (.binaryExpression .exp (.bigIntLiteral 2 wspanL)
        (.unaryExpression .minus (.bigIntLiteral 1 wspanR) wspanR) wspan)
      = .error "RangeError: Exponent must be non-negative" := by
  refine ⟨?_, ?_, ?_, ?_⟩ <;>
    simp +decide [evaluate, evalBinaryOnValues, jsBinFirst, homogeneityMismatch, isNumBigStr,
      typeofString, jsBinArith, isSecondSwitchOp, jsBigIntArith, evalUnaryOnValue,
      Value.isNullish, bind, Except.bind, pure, Except.pure]

/-- C3 (counterexample): the claim says relational operators over static
operands fold to exactly the host value, including coercions for `null` and
`undefined` operands.  At `null >= 0` the code folds to `false` (the explicit
nullish guard), while host semantics (`specBinFirstFold`, `ToNumeric(null) =
+0`) give `true`. -/
theorem relational_null_counterexample :
    evaluate emptyState
      (.binaryExpression .ge (.nullLiteral wspanL) (.numericLiteral (.rat 0) wspanR) wspan)
      = .ok (.staticValue (.bool false) wspan) ∧
    specBinFirstFold .ge .null (.num (.rat 0)) = .bool true := by
  constructor
  · simp [evaluate, evalBinaryOnValues, jsBinFirst, Value.isNullish, Value.isUndefined,
      bind, Except.bind, pure, Except.pure]
  · simp [specBinFirstFold, jsGE, jsLTRaw, jsToPrimitive, isObjectLike, toNumeric,
      jsToNumber, numericLess]

/-- For every first-switch operator, the binary fold on two static
non-symbolic operands produces exactly the first switch's result (with the
`typeof result !== "undefined"` fallthrough collapsing to `static undefined`,
which always coincides with the switch's own `undefined` result). -/
theorem evalBinaryOnValues_first (op : BinOp) (lv rv : Value) (lsp rsp span : Span)
    (hop : isFirstSwitchOp op = true) :
    evalBinaryOnValues op (.staticValue lv lsp) (.staticValue rv rsp) span =
      .ok (.staticValue ((jsBinFirst op lv rv).getD .undefined) span) := by
  have hundef : ∀ v : Value, v.isUndefined = true → v = .undefined := by
    intro v hv; cases v <;> simp_all [Value.isUndefined]
  have hmmL : ∀ lv' rv' : Value, lv'.isNullish = true → homogeneityMismatch lv' rv' = true := by
    intro lv' rv' h; cases lv' <;> simp_all [Value.isNullish, homogeneityMismatch, isNumBigStr]
  have hmmR : ∀ lv' rv' : Value, rv'.isNullish = true → homogeneityMismatch lv' rv' = true := by
    intro lv' rv' h; cases rv' <;> simp_all [Value.isNullish, homogeneityMismatch, isNumBigStr]
  cases op <;> simp [isFirstSwitchOp] at hop
  case eqeq => simp [evalBinaryOnValues, jsBinFirst, Value.isUndefined, pure, Except.pure]
  case noteq => simp [evalBinaryOnValues, jsBinFirst, Value.isUndefined, pure, Except.pure]
  case eqeqeq => simp [evalBinaryOnValues, jsBinFirst, Value.isUndefined, pure, Except.pure]
  case noteqeq => simp [evalBinaryOnValues, jsBinFirst, Value.isUndefined, pure, Except.pure]
  case lt => simp [evalBinaryOnValues, jsBinFirst, Value.isUndefined, pure, Except.pure]
  case le => simp [evalBinaryOnValues, jsBinFirst, Value.isUndefined, pure, Except.pure]
  case gt => simp [evalBinaryOnValues, jsBinFirst, Value.isUndefined, pure, Except.pure]
  case ge => simp [evalBinaryOnValues, jsBinFirst, Value.isUndefined, pure, Except.pure]
  case inOp => simp [evalBinaryOnValues, jsBinFirst, Value.isUndefined, pure, Except.pure]
  case instanceofOp => simp [evalBinaryOnValues, jsBinFirst, Value.isUndefined, pure, Except.pure]
  case andand =>
    simp only [evalBinaryOnValues, jsBinFirst]
    by_cases ht : jsTruthy lv = true
    · by_cases hu : rv.isUndefined = true
      · have := hundef rv hu
        subst this
        simp [ht, homogeneityMismatch, isNumBigStr, Value.isUndefined, pure, Except.pure]
      · simp at hu
        simp [ht, hu, pure, Except.pure]
    · simp at ht
      by_cases hu : lv.isUndefined = true
      · have := hundef lv hu
        subst this
        simp [ht, homogeneityMismatch, isNumBigStr, Value.isUndefined, pure, Except.pure]
      · simp at hu
        simp [ht, hu, pure, Except.pure]
  case oror =>
    simp only [evalBinaryOnValues, jsBinFirst]
    by_cases ht : jsTruthy lv = true
    · by_cases hu : lv.isUndefined = true
      · have := hundef lv hu
        subst this
        simp [jsTruthy] at ht
      · simp at hu
        simp [ht, hu, pure, Except.pure]
    · simp at ht
      by_cases hu : rv.isUndefined = true
      · have := hundef rv hu
        subst this
        simp [ht, homogeneityMismatch, isNumBigStr, Value.isUndefined, pure, Except.pure]
      · simp at hu
        simp [ht, hu, pure, Except.pure]
  case nullish =>
    simp only [evalBinaryOnValues, jsBinFirst]
    by_cases hn : lv.isNullish = true
    · by_cases hu : rv.isUndefined = true
      · have := hundef rv hu
        subst this
        simp [hn, hmmL lv .undefined hn, Value.isUndefined, pure, Except.pure]
      · simp at hu
        simp [hn, hu, pure, Except.pure]
    · simp at hn
      have hu : lv.isUndefined = false := by
        cases lv <;> simp_all [Value.isNullish, Value.isUndefined]
      simp [hn, hu, pure, Except.pure]

/-- C3 (amended): for every binary expression whose operands fold to static
non-symbolic values, the equality, `in`/`instanceof` (with catch-to-false)
and logical operators fold to exactly the host value; the relational
operators fold to the host value when neither operand is `null`/`undefined`,
and to `false` when either operand is `null` or `undefined` (the code's
explicit guard, diverging there from host coercion). -/
theorem binary_first_switch_host_semantics (sm : StateManager) (op : BinOp)
    (l r : Expr) (span lsp rsp : Span) (lv rv : Value)
    (hop : isFirstSwitchOp op = true)
    (hl : evaluate sm l = .ok (.staticValue lv lsp))
    (hr : evaluate sm r = .ok (.staticValue rv rsp)) :
    (¬(isRelationalOp op = true ∧ (lv.isNullish = true ∨ rv.isNullish = true)) →
      evaluate sm (.binaryExpression op l r span) =
        .ok (.staticValue (specBinFirstFold op lv rv) span)) ∧
    (isRelationalOp op = true → lv.isNullish = true ∨ rv.isNullish = true →
      evaluate sm (.binaryExpression op l r span) = .ok (.staticValue (.bool false) span)) := by
  have hbin : evaluate sm (.binaryExpression op l r span) =
      evalBinaryOnValues op (.staticValue lv lsp) (.staticValue rv rsp) span := by
    simp only [evaluate, hl, hr, bind, Except.bind]
  rw [hbin, evalBinaryOnValues_first op lv rv lsp rsp span hop]
  constructor
  · intro hnot
    have : (jsBinFirst op lv rv).getD .undefined = specBinFirstFold op lv rv := by
      cases op <;> simp_all [isFirstSwitchOp, isRelationalOp, jsBinFirst, specBinFirstFold]
    rw [this]
  · intro hrel hnull
    have : (jsBinFirst op lv rv).getD .undefined = .bool false := by
      cases op <;> simp_all [isRelationalOp, jsBinFirst]
    rw [this]

/-- C3 (witness): `true == 1` folds to the host value `true`; `null >= 0`
falls under the nullish guard and folds to `false`. -/
theorem binary_first_switch_host_semantics_witness :
    (isFirstSwitchOp .eqeq = true ∧
     evaluate emptyState
       (.binaryExpression .eqeq (.booleanLiteral true wspanL) (.numericLiteral (.rat 1) wspanR) wspan)
       = .ok (.staticValue (specBinFirstFold .eqeq (.bool true) (.num (.rat 1))) wspan) ∧
     specBinFirstFold .eqeq (.bool true) (.num (.rat 1)) = .bool true) ∧
    (isFirstSwitchOp .ge = true ∧ isRelationalOp .ge = true ∧
     evaluate emptyState
       (.binaryExpression .ge (.nullLiteral wspanL) (.numericLiteral (.rat 0) wspanR) wspan)
       = .ok (.staticValue (.bool false) wspan)) := by
  have hl1 : evaluate emptyState (.booleanLiteral true wspanL)
      = .ok (.staticValue (.bool true) wspanL) := by simp [evaluate, pure, Except.pure]
  have hr1 : evaluate emptyState (.numericLiteral (.rat 1) wspanR)
      = .ok (.staticValue (.num (.rat 1)) wspanR) := by simp [evaluate, pure, Except.pure]
  have hl2 : evaluate emptyState (.nullLiteral wspanL)
      = .ok (.staticValue .null wspanL) := by simp [evaluate, pure, Except.pure]
  have hr2 : evaluate emptyState (.numericLiteral (.rat 0) wspanR)
      = .ok (.staticValue (.num (.rat 0)) wspanR) := by simp [evaluate, pure, Except.pure]
  refine ⟨⟨rfl, ?_, ?_⟩, ⟨rfl, rfl, ?_⟩⟩
  · exact (binary_first_switch_host_semantics emptyState .eqeq _ _ wspan wspanL wspanR
      (.bool true) (.num (.rat 1)) rfl hl1 hr1).1 (by simp [isRelationalOp])
  · simp +decide [specBinFirstFold, jsLooseEq, isObjectLike, jsLooseEqPrim, loosePrimNorm,
      Value.isNullish, jsNumEq]
  · exact (binary_first_switch_host_semantics emptyState .ge _ _ wspan wspanL wspanR
      .null (.num (.rat 0)) rfl hl2 hr2).2 rfl (Or.inl rfl)

/-- C4: a bit, shift or arithmetic operator whose two static non-symbolic
operand values are not both of the same type among number, bigint and string
folds to `static: true, value: undefined` with the node's span, and does not
raise. -/
theorem arith_type_mismatch_undefined (sm : StateManager) (op : BinOp)
    (l r : Expr) (span lsp rsp : Span) (lv rv : Value)
    (hop : isSecondSwitchOp op = true)
    (hl : evaluate sm l = .ok (.staticValue lv lsp))
    (hr : evaluate sm r = .ok (.staticValue rv rsp))
    (hmix : ¬(isNumBigStr lv = true ∧ isNumBigStr rv = true ∧ typeofString lv = typeofString rv)) :
    evaluate sm (.binaryExpression op l r span) = .ok (.staticValue .undefined span) := by
  have hmm : homogeneityMismatch lv rv = true := by
    by_cases h1 : isNumBigStr lv = true
    · by_cases h2 : isNumBigStr rv = true
      · have h3 : typeofString lv ≠ typeofString rv := fun hc => hmix ⟨h1, h2, hc⟩
        simp [homogeneityMismatch, h3]
      · simp at h2; simp [homogeneityMismatch, h2]
    · simp at h1; simp [homogeneityMismatch, h1]
  rw [show evaluate sm (.binaryExpression op l r span) = (do
      let l' ← evaluate sm l
      let r' ← evaluate sm r
      evalBinaryOnValues op l' r' span) from by simp [evaluate]]
  rw [hl, hr]
  cases op <;> simp_all [isSecondSwitchOp, evalBinaryOnValues, jsBinFirst, bind, Except.bind,
    pure, Except.pure]

/-- C4 (witness): `1 + true` has mismatched operand types and folds to
`static undefined`. -/
theorem arith_type_mismatch_undefined_witness :
    isSecondSwitchOp .add = true ∧
    evaluate emptyState (.binaryExpression .add (.numericLiteral (.rat 1) wspanL)
      (.booleanLiteral true wspanR) wspan) = .ok (.staticValue .undefined wspan) := by
  refine ⟨rfl, arith_type_mismatch_undefined emptyState .add _ _ wspan wspanL wspanR
    (.num (.rat 1)) (.bool true) rfl ?_ ?_ ?_⟩
  · simp [evaluate, pure, Except.pure]
  · simp [evaluate, pure, Except.pure]
  · simp [isNumBigStr]

/-- A state manager that has verified `stylex` as the styling namespace and
`ftw` as a named import of `firstThatWorks` (concrete witness data for the
call-folding claim). -/
def stylexState : StateManager :=
  { verifyStylexIdentifier := fun n => n = "stylex"
    verifyNamedImport := fun n => if n = "ftw" then some "firstThatWorks" else none }

/-- Folding an element list of plain (non-spread, non-hole) entries evaluates
the expressions element-wise in order. -/
theorem processArrayElems_plain (sm : StateManager) (es : List Expr)
    (results : List EvalResult)
    (h : es.mapM (evaluate sm) = .ok results) :
    processArrayElems sm (es.map (.elem false)) = .ok results := by
  induction es generalizing results with
  | nil =>
    simp only [List.mapM_nil, pure, Except.pure] at h
    injection h with h'
    subst h'
    simp [processArrayElems, pure, Except.pure]
  | cons e es ih =>
    simp only [List.mapM_cons, bind, Except.bind, pure, Except.pure] at h
    cases he : evaluate sm e with
    | error err => rw [he] at h; exact absurd h (by simp)
    | ok r =>
      rw [he] at h
      cases hes : es.mapM (evaluate sm) with
      | error err => rw [hes] at h; exact absurd h (by simp)
      | ok rs =>
        rw [hes] at h
        injection h with h'
        subst h'
        simp only [List.map_cons, processArrayElems, he, bind, Except.bind, ih rs hes,
          spreadContribution, pure, Except.pure]
        simp

/-- C5: a call recognized as the styling library's `firstThatWorks` helper —
either as a verified named import or as a member call on a verified stylex
namespace identifier — with plain (non-spread) arguments folds to the static
sequence of the element-wise argument evaluations in reversed order. -/
theorem firstThatWorks_reverses (sm : StateManager) :
    (∀ (name : String) (sp span : Span) (es : List Expr) (results : List EvalResult),
      sm.verifyNamedImport name = some "firstThatWorks" →
      es.mapM (evaluate sm) = .ok results →
      evaluate sm (.callExpression (.identifier name sp) (es.map (.elem false)) span)
        = .ok (.staticValue (.seq results.reverse) span)) ∧
    (∀ (objName : String) (osp psp msp span : Span) (es : List Expr) (results : List EvalResult),
      sm.verifyStylexIdentifier objName = true →
      es.mapM (evaluate sm) = .ok results →
      evaluate sm (.callExpression
          (.memberExpression (.identifier objName osp) (.identifier "firstThatWorks" psp) msp)
          (es.map (.elem false)) span)
        = .ok (.staticValue (.seq results.reverse) span)) := by
  constructor
  · intro name sp span es results hname hes
    simp [evaluate, isFirstThatWorksCall, hname, processArrayElems_plain sm es results hes,
      bind, Except.bind, pure, Except.pure]
  · intro objName osp psp msp span es results hobj hes
    simp [evaluate, isFirstThatWorksCall, hobj, processArrayElems_plain sm es results hes,
      bind, Except.bind, pure, Except.pure]

/-- C5 (witness): `ftw("a", "b", "c")` under a state manager that verified the
named import folds to the sequence of `"c"`, `"b"`, `"a"`. -/
theorem firstThatWorks_reverses_witness :
    stylexState.verifyNamedImport "ftw" = some "firstThatWorks" ∧
    [Expr.stringLiteral "a" wspanL, Expr.stringLiteral "b" wspanR,
      Expr.stringLiteral "c" wspan].mapM (evaluate stylexState)
      = .ok [.staticValue (.str "a") wspanL, .staticValue (.str "b") wspanR,
             .staticValue (.str "c") wspan] ∧
    evaluate stylexState
      (.callExpression (.identifier "ftw" wspanL)
        ([Expr.stringLiteral "a" wspanL, Expr.stringLiteral "b" wspanR,
          Expr.stringLiteral "c" wspan].map (.elem false)) wspanR)
      = .ok (.staticValue (.seq
          [.staticValue (.str "c") wspan, .staticValue (.str "b") wspanR,
           .staticValue (.str "a") wspanL]) wspanR) := by
  have hm : [Expr.stringLiteral "a" wspanL, Expr.stringLiteral "b" wspanR,
      Expr.stringLiteral "c" wspan].mapM (evaluate stylexState)
      = .ok [.staticValue (.str "a") wspanL, .staticValue (.str "b") wspanR,
             .staticValue (.str "c") wspan] := by
    simp [List.mapM, List.mapM.loop, evaluate, bind, Except.bind, pure, Except.pure]
  exact ⟨by simp [stylexState], hm,
    (firstThatWorks_reverses stylexState).1 "ftw" wspanL wspanR _ _ (by simp [stylexState]) hm⟩

/-- The text an embedded expression contributes per the claim: its value, or
`var(--<id>)` for a symbolic reference. -/
def renderedTemplateExpr (r : EvalResult) : Value :=
  match r with
  | .staticId i _ => .str ("var(--" ++ i ++ ")")
  | .staticValue v _ => v
  | .nonStatic v => v

/-- The spec-side interleaving of quasi texts and rendered expression results
in source order. -/
def interleaveTemplate : List TemplateElt → List EvalResult → List Value
  | [], _ => []
  | q :: _, [] => [.str (templateEltText q)]
  | q :: qs, r :: rs => .str (templateEltText q) :: renderedTemplateExpr r :: interleaveTemplate qs rs

/-- The template loop produces exactly the interleaving of quasi texts and
rendered expression results when every embedded expression folds statically. -/
theorem templateLoop_interleaves (sm : StateManager) (es : List Expr) :
    ∀ (qs : List TemplateElt) (results : List EvalResult),
      es.mapM (evaluate sm) = .ok results →
      (∀ r ∈ results, r.isStatic = true) →
      qs.length = es.length + 1 →
      templateLoop sm true qs es = .ok (some (interleaveTemplate qs results)) := by
  induction es with
  | nil =>
    intro qs results hm hs hlen
    simp only [List.mapM_nil, pure, Except.pure] at hm
    injection hm with hm'
    subst hm'
    match qs, hlen with
    | [q], _ =>
      simp [templateLoop, templateEltResult, interleaveTemplate, bind, Except.bind,
        pure, Except.pure]
  | cons e es ih =>
    intro qs results hm hs hlen
    simp only [List.mapM_cons, bind, Except.bind, pure, Except.pure] at hm
    cases he : evaluate sm e with
    | error err => rw [he] at hm; exact absurd hm (by simp)
    | ok r =>
      rw [he] at hm
      cases hes : es.mapM (evaluate sm) with
      | error err => rw [hes] at hm; exact absurd hm (by simp)
      | ok rs =>
        rw [hes] at hm
        injection hm with hm'
        subst hm'
        match qs, hlen with
        | q :: qs', hlen =>
          have hlen' : qs'.length = es.length + 1 := by
            simpa using hlen
          have hr : r.isStatic = true := hs r (by simp)
          have hrs : ∀ x ∈ rs, x.isStatic = true := fun x hx => hs x (by simp [hx])
          have hrec := ih qs' rs hes hrs hlen'
          cases r with
          | nonStatic w => simp [EvalResult.isStatic] at hr
          | staticValue v vsp =>
            simp [templateLoop, templateEltResult, he, hrec, interleaveTemplate,
              renderedTemplateExpr, bind, Except.bind, pure, Except.pure]
          | staticId i isp =>
            simp [templateLoop, templateEltResult, he, hrec, interleaveTemplate,
              renderedTemplateExpr, bind, Except.bind, pure, Except.pure]

/-- C6: a template literal all of whose embedded expressions fold statically
(symbolic references included) folds to the static string interleaving the
quasi texts with the expression values in source order, a symbolic reference
with id `I` contributing `var(--I)`. -/
theorem template_literal_interleaves (sm : StateManager)
    (quasis : List TemplateElt) (es : List Expr) (span : Span)
    (results : List EvalResult)
    (hm : es.mapM (evaluate sm) = .ok results)
    (hs : ∀ r ∈ results, r.isStatic = true)
    (hlen : quasis.length = es.length + 1) :
    evaluate sm (.templateLiteral quasis es span) =
      .ok (.staticValue (.str (joinValues (interleaveTemplate quasis results))) span) := by
  simp [evaluate, templateLoop_interleaves sm es quasis results hm hs hlen,
    bind, Except.bind, pure, Except.pure]

/-- C6 (witness): `` `${x}px` `` with `x` folding to the symbolic reference
`color` yields the string `var(--color)px`. -/
theorem template_literal_interleaves_witness :
    [Expr.identifier "color" wspanL].mapM (evaluate emptyState)
      = .ok [.staticId "color" wspanL] ∧
    evaluate emptyState
      (.templateLiteral [⟨some "", "", wspanL⟩, ⟨some "px", "px", wspanR⟩]
        [.identifier "color" wspanL] wspan)
      = .ok (.staticValue (.str "var(--color)px") wspan) := by
  have hm : [Expr.identifier "color" wspanL].mapM (evaluate emptyState)
      = .ok [.staticId "color" wspanL] := by
    simp [List.mapM, List.mapM.loop, evaluate, bind, Except.bind, pure, Except.pure]
  refine ⟨hm, ?_⟩
  rw [template_literal_interleaves emptyState
    [⟨some "", "", wspanL⟩, ⟨some "px", "px", wspanR⟩] [.identifier "color" wspanL] wspan
    [.staticId "color" wspanL] hm (by simp [EvalResult.isStatic]) (by simp)]
  simp [interleaveTemplate, renderedTemplateExpr, templateEltText, joinValues,
    joinElemString, jsToString, String.join]

/-- C7: a binary expression with a `NonStatic` or symbolic operand evaluates
to `NonStatic`, while array and object expressions always return a static
container carrying the node's span — non-static children included — whenever
evaluation returns at all. -/
theorem nonstatic_operands_vs_containers (sm : StateManager) :
    (∀ (op : BinOp) (l r : Expr) (span : Span) (lr rr : EvalResult),
      evaluate sm l = .ok lr → evaluate sm r = .ok rr →
      (lr.isStatic = false ∨ rr.isStatic = false ∨
        (∃ i sp, lr = .staticId i sp) ∨ (∃ i sp, rr = .staticId i sp)) →
      evaluate sm (.binaryExpression op l r span) = .ok (.nonStatic .undefined)) ∧
    (∀ (elements : List ArrayElement) (span : Span) (result : EvalResult),
      evaluate sm (.arrayExpression elements span) = .ok result →
      ∃ vals, result = .staticValue (.seq vals) span) ∧
    (∀ (properties : List ObjectProperty) (span : Span) (result : EvalResult),
      evaluate sm (.objectExpression properties span) = .ok result →
      ∃ props, result = .staticValue (.map props) span) := by
  refine ⟨?_, ?_, ?_⟩
  · intro op l r span lr rr hl hr hcase
    have hbin : evaluate sm (.binaryExpression op l r span) =
        (match evaluate sm r with
         | Except.error err => Except.error err
         | Except.ok rv => evalBinaryOnValues op lr rv span) := by
      simp only [evaluate, hl, bind, Except.bind]
      cases evaluate sm r <;> rfl
    rw [hbin, hr]
    rcases hcase with h | h | ⟨i, sp, h⟩ | ⟨i, sp, h⟩
    · cases lr <;> simp [EvalResult.isStatic] at h <;>
        cases rr <;> simp [evalBinaryOnValues, pure, Except.pure]
    · cases rr <;> simp [EvalResult.isStatic] at h <;>
        cases lr <;> simp [evalBinaryOnValues, pure, Except.pure]
    · subst h; cases rr <;> simp [evalBinaryOnValues, pure, Except.pure]
    · subst h; cases lr <;> simp [evalBinaryOnValues, pure, Except.pure]
  · intro elements span result h
    have harr : evaluate sm (.arrayExpression elements span) =
        (match processArrayElems sm elements with
         | Except.error err => Except.error err
         | Except.ok vals => Except.ok (.staticValue (.seq vals) span)) := by
      simp only [evaluate, bind, Except.bind, pure, Except.pure]
      cases processArrayElems sm elements <;> rfl
    rw [harr] at h
    cases hq : processArrayElems sm elements with
    | error e => rw [hq] at h; exact absurd h (by simp)
    | ok vals => rw [hq] at h; exact ⟨vals, by injection h with h'; exact h'.symm⟩
  · intro properties span result h
    have hobj : evaluate sm (.objectExpression properties span) =
        (match processObjectProps sm properties [] with
         | Except.error err => Except.error err
         | Except.ok props => Except.ok (.staticValue (.map props) span)) := by
      simp only [evaluate, bind, Except.bind, pure, Except.pure]
      cases processObjectProps sm properties [] <;> rfl
    rw [hobj] at h
    cases hq : processObjectProps sm properties [] with
    | error e => rw [hq] at h; exact absurd h (by simp)
    | ok props => rw [hq] at h; exact ⟨props, by injection h with h'; exact h'.symm⟩

/-- C7 (witness): `this + 1` is `NonStatic`; `[this]` is a static sequence
holding the opaque non-static entry; `({})` is a static empty mapping. -/
theorem nonstatic_operands_vs_containers_witness :
    (evaluate emptyState (.unsupported "ThisExpression" wspanL) = .ok (.nonStatic .undefined) ∧
     evaluate emptyState (.numericLiteral (.rat 1) wspanR)
       = .ok (.staticValue (.num (.rat 1)) wspanR) ∧
     evaluate emptyState
       (.binaryExpression .add (.unsupported "ThisExpression" wspanL)
         (.numericLiteral (.rat 1) wspanR) wspan)
       = .ok (.nonStatic .undefined)) ∧
    (evaluate emptyState
       (.arrayExpression [.elem false (.unsupported "ThisExpression" wspanL)] wspan)
       = .ok (.staticValue (.seq [.nonStatic .undefined]) wspan)) ∧
    (evaluate emptyState (.objectExpression [] wspan) = .ok (.staticValue (.map []) wspan)) := by
  have h1 : evaluate emptyState (.unsupported "ThisExpression" wspanL)
      = .ok (.nonStatic .undefined) := by
    simp [evaluate, pure, Except.pure]
  have h2 : evaluate emptyState (.numericLiteral (.rat 1) wspanR)
      = .ok (.staticValue (.num (.rat 1)) wspanR) := by
    simp [evaluate, pure, Except.pure]
  refine ⟨⟨h1, h2, ?_⟩, ?_, ?_⟩
  · exact (nonstatic_operands_vs_containers emptyState).1 .add _ _ wspan _ _ h1 h2
      (Or.inl rfl)
  · simp [evaluate, processArrayElems, spreadContribution, bind, Except.bind, pure, Except.pure]
  · simp [evaluate, processObjectProps, bind, Except.bind, pure, Except.pure]

/-- C8: the wildcard handlers' skip condition — cursor strictly below the
adjusted span start and strictly above the adjusted span end — is
unsatisfiable whenever the span start does not exceed the span end, so
neither walk's `"*"` handler ever returns `false` or prunes a subtree. -/
theorem wildcard_handler_never_skips (paramByte moduleStart spanStart spanEnd : Int)
    (hasSpan : Bool) (nodeType : String) (h : spanStart ≤ spanEnd) :
    hoverWildcardSkips paramByte moduleStart hasSpan nodeType spanStart spanEnd = false ∧
    completionWildcardSkips paramByte moduleStart hasSpan nodeType spanStart spanEnd = false := by
  refine ⟨?_, ?_⟩ <;>
  · by_cases h1 : paramByte < spanStart - moduleStart
    · have h2 : ¬(paramByte > spanEnd - moduleStart) := by omega
      simp [hoverWildcardSkips, completionWildcardSkips, h2]
    · simp [hoverWildcardSkips, completionWildcardSkips, h1]

/-- C8 (witness): a concrete node of span `[1, 3]` is never skipped. -/
theorem wildcard_handler_never_skips_witness :
    (1 : Int) ≤ 3 ∧
    hoverWildcardSkips 5 0 true "CallExpression" 1 3 = false ∧
    completionWildcardSkips 5 0 true "CallExpression" 1 3 = false :=
  ⟨by decide, wildcard_handler_never_skips 5 0 1 3 true "CallExpression" (by decide)⟩

/-- The value of a member read on a static non-symbolic base, as the claim
states it: the base itself when nullish, the host property read for a string
key, `undefined` otherwise. -/
def memberFoldValue (v : Value) (pr : EvalResult) : Value :=
  if v.isNullish then v
  else
    match propertyKeyValue pr with
    | .str k => jsGetProp v k
    | _ => .undefined

/-- C9: a member expression whose object folds to a static non-symbolic value
`v` and whose property folds statically returns a static result (never
`NonStatic`, never raising): `v` itself when `v` is nullish, the host
property read `jsGetProp v k` for a string key `k`, and `undefined` for a
non-string key. -/
theorem member_static_object_read (sm : StateManager) (obj prop : Expr)
    (span vsp : Span) (v : Value) (pr : EvalResult)
    (ho : evaluate sm obj = .ok (.staticValue v vsp))
    (hp : evaluate sm prop = .ok pr)
    (hps : pr.isStatic = true) :
    evaluate sm (.memberExpression obj prop span) =
      .ok (.staticValue (memberFoldValue v pr) span) := by
  have hstep : evaluate sm (.memberExpression obj prop span) =
      (match evaluate sm prop with
       | Except.error err => Except.error err
       | Except.ok p => pure (memberOnValues (.staticValue v vsp) p span)) := by
    simp only [evaluate, ho, bind, Except.bind, Functor.map, Except.map]
    cases evaluate sm prop <;> rfl
  rw [hstep, hp]
  cases pr with
  | nonStatic w => simp [EvalResult.isStatic] at hps
  | staticValue pv psp =>
    simp only [memberOnValues, memberFoldValue]
    by_cases hn : v.isNullish = true
    · simp [hn, pure, Except.pure]
    · simp only [hn, if_false, Bool.false_eq_true]
      cases pv <;> simp [propertyKeyValue, pure, Except.pure]
  | staticId i psp =>
    simp only [memberOnValues, memberFoldValue]
    by_cases hn : v.isNullish = true
    · simp [hn, pure, Except.pure]
    · simp [hn, propertyKeyValue, pure, Except.pure]

/-- C9 (witness): `"abc".length` folds to the static number 3, and the host
prototype property `"abc".constructor` is reachable through the folded
value. -/
theorem member_static_object_read_witness :
    evaluate emptyState (.stringLiteral "abc" wspanL) = .ok (.staticValue (.str "abc") wspanL) ∧
    evaluate emptyState (.identifier "length" wspanR) = .ok (.staticId "length" wspanR) ∧
    (EvalResult.staticId "length" wspanR).isStatic = true ∧
    evaluate emptyState
      (.memberExpression (.stringLiteral "abc" wspanL) (.identifier "length" wspanR) wspan)
      = .ok (.staticValue (.num (.rat 3)) wspan) ∧
    evaluate emptyState
      (.memberExpression (.stringLiteral "abc" wspanL) (.identifier "constructor" wspanR) wspan)
      = .ok (.staticValue (.hostObject "String.prototype.constructor") wspan) := by
  have h1 : evaluate emptyState (.stringLiteral "abc" wspanL)
      = .ok (.staticValue (.str "abc") wspanL) := by simp [evaluate, pure, Except.pure]
  have h2 : evaluate emptyState (.identifier "length" wspanR)
      = .ok (.staticId "length" wspanR) := by simp [evaluate, pure, Except.pure]
  have h3 : evaluate emptyState (.identifier "constructor" wspanR)
      = .ok (.staticId "constructor" wspanR) := by simp [evaluate, pure, Except.pure]
  refine ⟨h1, h2, rfl, ?_, ?_⟩
  · rw [member_static_object_read emptyState _ _ wspan wspanL (.str "abc")
      (.staticId "length" wspanR) h1 h2 rfl]
    simp only [memberFoldValue, Value.isNullish, propertyKeyValue, jsGetProp]
    rw [show "abc".length = 3 from rfl]
    norm_num
  · rw [member_static_object_read emptyState _ _ wspan wspanL (.str "abc")
      (.staticId "constructor" wspanR) h1 h3 rfl]
    simp only [memberFoldValue, Value.isNullish, propertyKeyValue]
    rfl

/-- C10: `getColorFromValue` returns `null` for every non-string input;
returns the `transparent`/`currentColor` keyword when the trimmed input
equals them case-insensitively; and for a string matching neither the
functional form, the hex form nor a named color (nor a keyword) it returns
`null` for *every* parse function — i.e. without consulting the parser. -/
theorem getColorFromValue_cases :
    (∀ (γ : Type) (parse : String → Option γ) (v : Value),
        (∀ s, v ≠ .str s) → getColorFromValue parse v = none) ∧
    (∀ (γ : Type) (parse : String → Option γ) (s : String),
        jsToLowerCase (jsTrim s) = "transparent" →
        getColorFromValue parse (.str s) = some (.inr .transparent)) ∧
    (∀ (γ : Type) (parse : String → Option γ) (s : String),
        jsToLowerCase (jsTrim s) = "currentcolor" →
        getColorFromValue parse (.str s) = some (.inr .currentColor)) ∧
    (∀ (γ : Type) (parse : String → Option γ) (s : String),
        jsToLowerCase (jsTrim s) ≠ "transparent" →
        jsToLowerCase (jsTrim s) ≠ "currentcolor" →
        matchesFunctionalColor (jsTrim s) = false →
        matchesHexColor (jsTrim s) = false →
        namedColorKeys.contains (jsTrim s) = false →
        getColorFromValue parse (.str s) = none) := by
  refine ⟨?_, ?_, ?_, ?_⟩
  · intro γ parse v hv
    cases v <;> first
      | rfl
      | (exact absurd rfl (hv _))
      | simp [getColorFromValue]
  · intro γ parse s h
    simp [getColorFromValue, h]
  · intro γ parse s h
    by_cases ht : jsToLowerCase (jsTrim s) = "transparent"
    · rw [h] at ht; exact absurd ht (by decide)
    · simp [getColorFromValue, ht, h]
  · intro γ parse s h1 h2 h3 h4 h5
    have h5' : jsTrim s ∉ namedColorKeys := by simpa using h5
    simp [getColorFromValue, h1, h2, h3, h4, h5']

/-- C10 (witness): a number input gives `null`; `" TRANSPARENT "` gives the
`transparent` keyword; `"currentColor"` gives the `currentColor` keyword; and
`"notacolor"` gives `null` even under a parser that accepts everything. -/
theorem getColorFromValue_cases_witness :
    ((∀ s, Value.null ≠ Value.str s) ∧
      @getColorFromValue Unit (fun _ => none) .null = none) ∧
    (jsToLowerCase (jsTrim " TRANSPARENT ") = "transparent" ∧
      @getColorFromValue Unit (fun _ => none) (.str " TRANSPARENT ")
        = some (.inr .transparent)) ∧
    (jsToLowerCase (jsTrim "currentColor") = "currentcolor" ∧
      @getColorFromValue Unit (fun _ => none) (.str "currentColor")
        = some (.inr .currentColor)) ∧
    (@getColorFromValue Unit (fun _ => some ()) (.str "notacolor") = none) := by
  refine ⟨⟨fun s => by simp, getColorFromValue_cases.1 Unit _ _ (fun s => by simp)⟩,
    ⟨by decide, getColorFromValue_cases.2.1 Unit _ _ (by decide)⟩,
    ⟨by decide, getColorFromValue_cases.2.2.1 Unit _ _ (by decide)⟩,
    getColorFromValue_cases.2.2.2 Unit _ _ (by decide) (by decide) (by decide) (by decide)
      (by decide)⟩
